import Mathlib

/-!
Engagement consistency of the short-video backend.

A shallow embedding of the request handlers in `src/controllers` over an explicit
document store.  Each collection is the list of its documents in insertion order,
object ids are natural numbers, counters are JavaScript numbers restricted to the
integers, and a handler is a function from the store to the reply it sends together
with the store it leaves behind.  A handler receives an id of the request path as the
ObjectId the store casts it to; `followUser` and `unfollowUser`, which compare the
string itself, receive the string.
-/

namespace Backend

/-! ## Documents -/

/-- Modelled from the spec: the User model (`src/models/User.js` is not part of the
sources).  The spec lists `username`, `email`, `bio`, `avatarRef` and the two counters
`followers` and `following`; the controllers read and write exactly these. -/
structure User where
  id : Nat
  username : String
  email : String
  bio : String
  avatar : String
  followers : Int
  following : Int
  deriving DecidableEq, Repr

/-- Document of `src/models/Follow.js`: `follower` follows `following`. -/
structure Follow where
  follower : Nat
  following : Nat
  deriving DecidableEq, Repr

/-- Document of `src/models/Video.js`. -/
structure Video where
  id : Nat
  user : Nat
  videoUrl : String
  thumbnail : String
  caption : String
  tags : List String
  sound : String
  likes : Int
  comments : Int
  shares : Int
  views : Int
  createdAt : Nat
  deriving DecidableEq, Repr

/-- Document of `src/models/Comment.js`; `parent = none` is a top-level comment. -/
structure Comment where
  id : Nat
  video : Nat
  user : Nat
  content : String
  likes : Int
  parent : Option Nat
  createdAt : Nat
  deriving DecidableEq, Repr

/-- Document of `src/models/Like.js`; both targets default to `null` (`none`). -/
structure Like where
  user : Nat
  video : Option Nat
  comment : Option Nat
  deriving DecidableEq, Repr

/-- The document store: one list of documents per collection. -/
structure Store where
  users : List User
  follows : List Follow
  videos : List Video
  comments : List Comment
  likes : List Like
  deriving DecidableEq, Repr

/-- What a handler sends: `res.status(status).json(\x7b status, message \x7d)`. -/
structure Reply where
  status : Nat
  message : String
  deriving DecidableEq, Repr

/-- An error object reaching the error middleware of `src/server.js`. -/
structure Err where
  statusCode : Option Nat
  message : String
  deriving DecidableEq, Repr

/-- The error handling middleware of `src/server.js`:
`statusCode = err.statusCode || 500`, `message = err.message || 'Internal Server Error'`. -/
def errorHandler (err : Err) : Reply :=
  { status := match err.statusCode with
      | some 0 => 500
      | some c => c
      | none => 500
    message := if err.message = "" then "Internal Server Error" else err.message }

/-- The error the driver throws when an insert violates a unique index; it carries
no `statusCode`. -/
def duplicateKeyError : Err :=
  { statusCode := none, message := "E11000 duplicate key error" }

/-! ## Store primitives -/

/-- The update half of `findByIdAndUpdate` / `doc.save()`: the first document
matching `p` is replaced by its image under `f`, nothing else is touched. -/
def updateOne {α : Type} (p : α → Bool) (f : α → α) : List α → List α
  | [] => []
  | x :: xs => if p x then f x :: xs else x :: updateOne p f xs

/-- The query `User.findById(id)`. -/
def User.findById (id : Nat) (l : List User) : Option User :=
  l.find? (fun u => u.id == id)

/-- The update `User.findByIdAndUpdate(id, \x7b $inc: \x7b followers: d \x7d \x7d)`. -/
def User.incFollowers (id : Nat) (d : Int) (l : List User) : List User :=
  updateOne (fun u => u.id == id) (fun u => { u with followers := u.followers + d }) l

/-- The update `User.findByIdAndUpdate(id, \x7b $inc: \x7b following: d \x7d \x7d)`. -/
def User.incFollowing (id : Nat) (d : Int) (l : List User) : List User :=
  updateOne (fun u => u.id == id) (fun u => { u with following := u.following + d }) l

/-- The filter `\x7b follower, following \x7d` used by every Follow query. -/
def Follow.matches (follower following : Nat) (f : Follow) : Bool :=
  f.follower == follower && f.following == following

/-- The query `Follow.findOne(\x7b follower, following \x7d)`. -/
def Follow.findOne (follower following : Nat) (l : List Follow) : Option Follow :=
  l.find? (Follow.matches follower following)

/-- The insert `Follow.create(doc)` under the unique index
`\x7b follower: 1, following: 1 \x7d` of `src/models/Follow.js`: a second document with
the same pair is rejected with a duplicate key error. -/
def Follow.create (doc : Follow) (l : List Follow) : Except Err (List Follow) :=
  if l.any (Follow.matches doc.follower doc.following) then .error duplicateKeyError
  else .ok (l ++ [doc])

/-- The delete `Follow.findOneAndDelete(\x7b follower, following \x7d)`. -/
def Follow.findOneAndDelete (follower following : Nat) (l : List Follow) : List Follow :=
  l.eraseP (Follow.matches follower following)

/-! ## Object ids in request paths -/

/-- The hex digit for a value below sixteen, in lower case as `ObjectId.toString()`
writes it. -/
def hexChar (d : Nat) : Char :=
  "0123456789abcdef".toList.getD d '0'

/-- The value of a hex digit, in either case. -/
def hexValue (c : Char) : Option Nat :=
  if 48 ≤ c.toNat && c.toNat ≤ 57 then some (c.toNat - 48)
  else if 97 ≤ c.toNat && c.toNat ≤ 102 then some (c.toNat - 87)
  else if 65 ≤ c.toNat && c.toNat ≤ 70 then some (c.toNat - 55)
  else none

/-- The `k` lowest hex digits of `n`, highest first. -/
def lowHexDigits (k n : Nat) : List Char :=
  (List.range k).reverse.map (fun i => hexChar (n / 16 ^ i % 16))

/-- The hex digits of `m`, highest first, none at all for zero. -/
def highHexDigits : Nat → Nat → List Char
  | 0, _ => []
  | fuel + 1, m => if m = 0 then [] else highHexDigits fuel (m / 16) ++ [hexChar (m % 16)]

/-- The string `_id.toString()`: the id in lower-case hex, 24 digits for the twelve
bytes of an ObjectId.  A number beyond twelve bytes, which no store holds as an id,
is written with the digits it needs. -/
def ObjectId.toString (n : Nat) : String :=
  String.mk (highHexDigits n (n / 16 ^ 24) ++ lowHexDigits 24 n)

/-- One step of reading a hex string: the value so far and the next character. -/
def hexStep (acc : Option Nat) (c : Char) : Option Nat :=
  match acc, hexValue c with
  | some n, some d => some (n * 16 + d)
  | _, _ => none

/-- The cast of a request string to an ObjectId, which every store call applies to
it: 24 hex digits, upper or lower case; `none` when the string is no such text and
the call throws a `CastError`. -/
def castObjectId (str : String) : Option Nat :=
  if str.toList.length = 24 then str.toList.foldl hexStep (some 0) else none

/-- The error a store call throws for a string it cannot cast; it carries no
`statusCode`. -/
def castError : Err :=
  { statusCode := none, message := "Cast to ObjectId failed" }

/-! ## `src/controllers/userController.js` -/

/-- Handler `followUser`: `currentUserId` is `req.user._id` and `id` is the string
`req.params.id`.  The self test is `id === currentUserId.toString()`, on the string as
it came; every store call after it casts the string to an ObjectId. -/
def followUser (currentUserId : Nat) (id : String) (s : Store) : Reply × Store :=
  if id = ObjectId.toString currentUserId then
    (⟨400, "You cannot follow yourself"⟩, s)
  else
    match castObjectId id with
    | none => (errorHandler castError, s)
    | some target =>
      match User.findById target s.users with
      | none => (⟨404, "User not found"⟩, s)
      | some _ =>
        match Follow.findOne currentUserId target s.follows with
        | some _ => (⟨400, "You are already following this user"⟩, s)
        | none =>
          match Follow.create ⟨currentUserId, target⟩ s.follows with
          | .error e => (errorHandler e, s)
          | .ok follows =>
            let users := User.incFollowers target 1 s.users
            let users := User.incFollowing currentUserId 1 users
            (⟨200, "Successfully followed user"⟩,
              { s with follows := follows, users := users })

/-- Handler `unfollowUser`, with the same string test and the same casts. -/
def unfollowUser (currentUserId : Nat) (id : String) (s : Store) : Reply × Store :=
  if id = ObjectId.toString currentUserId then
    (⟨400, "You cannot unfollow yourself"⟩, s)
  else
    match castObjectId id with
    | none => (errorHandler castError, s)
    | some target =>
      match User.findById target s.users with
      | none => (⟨404, "User not found"⟩, s)
      | some _ =>
        match Follow.findOne currentUserId target s.follows with
        | none => (⟨400, "You are not following this user"⟩, s)
        | some _ =>
          let follows := Follow.findOneAndDelete currentUserId target s.follows
          let users := User.incFollowers target (-1) s.users
          let users := User.incFollowing currentUserId (-1) users
          (⟨200, "Successfully unfollowed user"⟩,
            { s with follows := follows, users := users })

/-! ## Store primitives for videos, comments and likes -/

/-- The query `Video.findById(id)`. -/
def Video.findById (id : Nat) (l : List Video) : Option Video :=
  l.find? (fun v => v.id == id)

/-- The write `video.save()` after `video.likes` was assigned: only the modified
path is written, to the document with the `_id` of the loaded one. -/
def Video.saveLikes (id : Nat) (likes : Int) (l : List Video) : List Video :=
  updateOne (fun v => v.id == id) (fun v => { v with likes := likes }) l

/-- The query `Comment.findById(id)`. -/
def Comment.findById (id : Nat) (l : List Comment) : Option Comment :=
  l.find? (fun c => c.id == id)

/-- The write `comment.save()` after `comment.likes` was assigned. -/
def Comment.saveLikes (id : Nat) (likes : Int) (l : List Comment) : List Comment :=
  updateOne (fun c => c.id == id) (fun c => { c with likes := likes }) l

/-- The filter `\x7b user, video \x7d`. -/
def Like.matchesVideo (user video : Nat) (k : Like) : Bool :=
  k.user == user && k.video == some video

/-- The filter `\x7b user, comment \x7d`. -/
def Like.matchesComment (user comment : Nat) (k : Like) : Bool :=
  k.user == user && k.comment == some comment

/-- The insert `Like.create(doc)` under the two unique indexes of `src/models/Like.js`,
`\x7b user: 1, video: 1 \x7d` and `\x7b user: 1, comment: 1 \x7d`.  Both are declared sparse, but a
sparse compound index leaves out only documents that have none of its fields, and
`user` is required, so every Like document is in both indexes, with the `null` that
the schema default stores for the target it does not have. -/
def Like.create (doc : Like) (l : List Like) : Except Err (List Like) :=
  if l.any (fun k => k.user == doc.user && k.video == doc.video)
      || l.any (fun k => k.user == doc.user && k.comment == doc.comment) then
    .error duplicateKeyError
  else .ok (l ++ [doc])

/-! ## `likeVideo` and `unlikeVideo` of `src/controllers/videoController.js` -/

/-- Handler `likeVideo`: `userId` is `req.user._id`, `id` is `req.params.id`. -/
def likeVideo (userId id : Nat) (s : Store) : Reply × Store :=
  match Video.findById id s.videos with
  | none => (⟨404, "Video not found"⟩, s)
  | some video =>
    match s.likes.find? (Like.matchesVideo userId id) with
    | some _ => (⟨400, "You have already liked this video"⟩, s)
    | none =>
      match Like.create ⟨userId, some id, none⟩ s.likes with
      | .error e => (errorHandler e, s)
      | .ok likes =>
        (⟨200, "Video liked successfully"⟩,
          { s with likes := likes, videos := Video.saveLikes video.id (video.likes + 1) s.videos })

/-- Handler `unlikeVideo`. -/
def unlikeVideo (userId id : Nat) (s : Store) : Reply × Store :=
  match Video.findById id s.videos with
  | none => (⟨404, "Video not found"⟩, s)
  | some video =>
    match s.likes.find? (Like.matchesVideo userId id) with
    | none => (⟨400, "You have not liked this video"⟩, s)
    | some _ =>
      let likes := s.likes.eraseP (Like.matchesVideo userId id)
      let videos :=
        if video.likes > 0 then Video.saveLikes video.id (video.likes - 1) s.videos
        else s.videos
      (⟨200, "Video unliked successfully"⟩, { s with likes := likes, videos := videos })

/-! ## `likeComment` and `unlikeComment` of `src/controllers/commentController.js` -/

/-- Handler `likeComment`. -/
def likeComment (userId id : Nat) (s : Store) : Reply × Store :=
  match Comment.findById id s.comments with
  | none => (⟨404, "Comment not found"⟩, s)
  | some comment =>
    match s.likes.find? (Like.matchesComment userId id) with
    | some _ => (⟨400, "You have already liked this comment"⟩, s)
    | none =>
      match Like.create ⟨userId, none, some id⟩ s.likes with
      | .error e => (errorHandler e, s)
      | .ok likes =>
        (⟨200, "Comment liked successfully"⟩,
          { s with likes := likes,
                   comments := Comment.saveLikes comment.id (comment.likes + 1) s.comments })

/-- Handler `unlikeComment`. -/
def unlikeComment (userId id : Nat) (s : Store) : Reply × Store :=
  match Comment.findById id s.comments with
  | none => (⟨404, "Comment not found"⟩, s)
  | some comment =>
    match s.likes.find? (Like.matchesComment userId id) with
    | none => (⟨400, "You have not liked this comment"⟩, s)
    | some _ =>
      let likes := s.likes.eraseP (Like.matchesComment userId id)
      let comments :=
        if comment.likes > 0 then Comment.saveLikes comment.id (comment.likes - 1) s.comments
        else s.comments
      (⟨200, "Comment unliked successfully"⟩, { s with likes := likes, comments := comments })

/-! ## Concurrent execution of `likeVideo`

Every `await` of the handler is one atomic store operation; between two of them any
other request may run.  A request in flight is its position in the handler together
with the document it holds in the local variable `video`. -/

/-- Where a `likeVideo` request stands. -/
inductive LikePc where
  | start
  | loaded (video : Video)
  | checked (video : Video)
  | created (video : Video)
  | done (reply : Reply)
  deriving DecidableEq, Repr

/-- A `likeVideo` request in flight. -/
structure LikeReq where
  userId : Nat
  id : Nat
  pc : LikePc
  deriving DecidableEq, Repr

/-- One store operation of a `likeVideo` request: `Video.findById`, `Like.findOne`,
`Like.create`, then `video.likes += 1; video.save()`. -/
def likeVideoStep (r : LikeReq) (s : Store) : LikeReq × Store :=
  match r.pc with
  | .start =>
    match Video.findById r.id s.videos with
    | none => ({ r with pc := .done ⟨404, "Video not found"⟩ }, s)
    | some video => ({ r with pc := .loaded video }, s)
  | .loaded video =>
    match s.likes.find? (Like.matchesVideo r.userId r.id) with
    | some _ => ({ r with pc := .done ⟨400, "You have already liked this video"⟩ }, s)
    | none => ({ r with pc := .checked video }, s)
  | .checked video =>
    match Like.create ⟨r.userId, some r.id, none⟩ s.likes with
    | .error e => ({ r with pc := .done (errorHandler e) }, s)
    | .ok likes => ({ r with pc := .created video }, { s with likes := likes })
  | .created video =>
    ({ r with pc := .done ⟨200, "Video liked successfully"⟩ },
      { s with videos := Video.saveLikes video.id (video.likes + 1) s.videos })
  | .done _ => (r, s)

/-- Requests in flight and the store they share. -/
structure Sys where
  reqs : List LikeReq
  store : Store
  deriving DecidableEq, Repr

/-- The request at position `i` performs its next store operation. -/
def Sys.step (i : Nat) (c : Sys) : Sys :=
  match c.reqs.get? i with
  | none => c
  | some r =>
    let (r1, s1) := likeVideoStep r c.store
    { reqs := c.reqs.set i r1, store := s1 }

/-- An interleaving: the positions of the requests in the order they get to run. -/
def Sys.run (schedule : List Nat) (c : Sys) : Sys :=
  schedule.foldl (fun c i => c.step i) c

/-- The whole handler run without interruption: its four store operations in a row. -/
def likeVideoSolo (userId id : Nat) (s : Store) : LikeReq × Store :=
  let (r1, s1) := likeVideoStep ⟨userId, id, .start⟩ s
  let (r2, s2) := likeVideoStep r1 s1
  let (r3, s3) := likeVideoStep r2 s2
  likeVideoStep r3 s3

/-! ## Derived quantities the counters are meant to equal -/

/-- Number of Follow edges whose `following` is `id`. -/
def followersCount (id : Nat) (l : List Follow) : Nat :=
  l.countP (fun f => f.following == id)

/-- Number of Follow edges whose `follower` is `id`. -/
def followingCount (id : Nat) (l : List Follow) : Nat :=
  l.countP (fun f => f.follower == id)

/-- Number of Like records whose `video` is `id`. -/
def videoLikeCount (id : Nat) (l : List Like) : Nat :=
  l.countP (fun k => k.video == some id)

/-- Object ids are unique inside the users collection. -/
def Store.usersUnique (s : Store) : Prop :=
  (s.users.map (fun u => u.id)).Nodup

/-- Object ids are unique inside the videos collection. -/
def Store.videosUnique (s : Store) : Prop :=
  (s.videos.map (fun v => v.id)).Nodup

/-- Every user's counters equal the live edge counts. -/
def Store.followCountersExact (s : Store) : Prop :=
  ∀ u ∈ s.users,
    u.followers = (followersCount u.id s.follows : Int) ∧
    u.following = (followingCount u.id s.follows : Int)

/-- Every video's `likes` equals the number of Like records on it. -/
def Store.videoLikesExact (s : Store) : Prop :=
  ∀ v ∈ s.videos, v.likes = (videoLikeCount v.id s.likes : Int)

/-- A call in a follow/unfollow history: requester and the string `req.params.id`. -/
inductive FollowCall where
  | follow (currentUserId : Nat) (id : String)
  | unfollow (currentUserId : Nat) (id : String)
  deriving DecidableEq, Repr

/-- The store after one call of a follow/unfollow history. -/
def FollowCall.apply (c : FollowCall) (s : Store) : Store :=
  match c with
  | .follow a b => (followUser a b s).2
  | .unfollow a b => (unfollowUser a b s).2

/-- A call in a like/unlike history on videos. -/
inductive VideoLikeCall where
  | like (userId id : Nat)
  | unlike (userId id : Nat)
  deriving DecidableEq, Repr

/-- The store after one call of a like/unlike history. -/
def VideoLikeCall.apply (c : VideoLikeCall) (s : Store) : Store :=
  match c with
  | .like u v => (likeVideo u v s).2
  | .unlike u v => (unlikeVideo u v s).2

/-! ## Comments, deletion and upload -/

/-- What a handler that may send a document sends: either the error or status object
`\x7b status, message \x7d`, or `res.status(status).json(body)`. -/
inductive Answer (α : Type) where
  | message (reply : Reply)
  | document (status : Nat) (body : α)
  deriving DecidableEq, Repr

/-- The HTTP status of an answer. -/
def Answer.status {α : Type} : Answer α → Nat
  | .message reply => reply.status
  | .document status _ => status

/-- The `length` of a JavaScript string: UTF-16 code units, two for a character
outside the basic plane. -/
def jsLength (s : String) : Nat :=
  s.toList.foldl (fun n ch => n + (if ch.toNat ≥ 65536 then 2 else 1)) 0

/-- The error a failed schema validation throws; it carries no `statusCode`. -/
def validationError (message : String) : Err :=
  { statusCode := none, message := message }

/-- The insert `Comment.create(doc)` under the schema of `src/models/Comment.js`:
`content` is required and at most 300 long. -/
def Comment.create (doc : Comment) (l : List Comment) : Except Err (List Comment) :=
  if doc.content = "" then
    .error (validationError "Comment validation failed: content: Comment content is required")
  else if jsLength doc.content > 300 then
    .error (validationError
      "Comment validation failed: content: Comment cannot be more than 300 characters")
  else .ok (l ++ [doc])

/-- The insert `Video.create(doc)` under the schema of `src/models/Video.js`:
`caption` is required and at most 150 long. -/
def Video.create (doc : Video) (l : List Video) : Except Err (List Video) :=
  if doc.caption = "" then
    .error (validationError "Video validation failed: caption: Path `caption` is required.")
  else if jsLength doc.caption > 150 then
    .error (validationError
      "Video validation failed: caption: Caption cannot be more than 150 characters")
  else .ok (l ++ [doc])

/-- The write `video.save()` after `video.comments` was assigned. -/
def Video.saveComments (id : Nat) (comments : Int) (l : List Video) : List Video :=
  updateOne (fun v => v.id == id) (fun v => { v with comments := comments }) l

/-- The write `video.save()` after `video.views` was assigned. -/
def Video.saveViews (id : Nat) (views : Int) (l : List Video) : List Video :=
  updateOne (fun v => v.id == id) (fun v => { v with views := views }) l

/-- Handler `addComment` of `src/controllers/commentController.js`.  `content` and
`parentId` are the two body fields (`none` when absent), `newId` and `now` are the
`_id` and the creation time the store gives the new document. -/
def addComment (userId videoId : Nat) (content : Option String) (parentId : Option Nat)
    (newId now : Nat) (s : Store) : Answer Comment × Store :=
  match content with
  | none => (.message ⟨400, "Comment content is required"⟩, s)
  | some text =>
    if text = "" then (.message ⟨400, "Comment content is required"⟩, s)
    else
      match Video.findById videoId s.videos with
      | none => (.message ⟨404, "Video not found"⟩, s)
      | some video =>
        let parentMissing :=
          match parentId with
          | none => false
          | some p => (Comment.findById p s.comments).isNone
        if parentMissing then (.message ⟨404, "Parent comment not found"⟩, s)
        else
          let doc : Comment := ⟨newId, videoId, userId, text, 0, parentId, now⟩
          match Comment.create doc s.comments with
          | .error e => (.message (errorHandler e), s)
          | .ok comments =>
            (.document 201 doc,
              { s with comments := comments,
                       videos := Video.saveComments video.id (video.comments + 1) s.videos })

/-- Handler `deleteComment` of `src/controllers/commentController.js`. -/
def deleteComment (userId id : Nat) (s : Store) : Reply × Store :=
  match Comment.findById id s.comments with
  | none => (⟨404, "Comment not found"⟩, s)
  | some comment =>
    if comment.user ≠ userId then (⟨403, "You can only delete your own comments"⟩, s)
    else
      let video := Video.findById comment.video s.videos
      let likes := s.likes.filter (fun k => !(k.comment == some id))
      let replies := s.comments.filter (fun c => c.parent == some id)
      let comments := s.comments.filter (fun c => !(c.parent == some id))
      let comments := comments.eraseP (fun c => c.id == id)
      let videos :=
        match video with
        | none => s.videos
        | some v =>
          let counted : Int := if replies.length > 0 then v.comments - replies.length else v.comments
          Video.saveComments v.id (counted - 1) s.videos
      (⟨200, "Comment deleted successfully"⟩,
        { s with likes := likes, comments := comments, videos := videos })

/-- Handler `deleteVideo` of `src/controllers/videoController.js`.  The two `fs` calls
remove files from the disk, which is not part of the store. -/
def deleteVideo (userId id : Nat) (s : Store) : Reply × Store :=
  match Video.findById id s.videos with
  | none => (⟨404, "Video not found"⟩, s)
  | some video =>
    if video.user ≠ userId then (⟨403, "You can only delete your own videos"⟩, s)
    else
      let likes := s.likes.filter (fun k => !(k.video == some id))
      let comments := s.comments.filter (fun c => !(c.video == id))
      let videos := s.videos.eraseP (fun v => v.id == id)
      (⟨200, "Video deleted successfully"⟩,
        { s with likes := likes, comments := comments, videos := videos })

/-- A video as a handler sends it: the document and, when the handler attached it,
the field `isLiked`. -/
structure VideoView where
  video : Video
  isLiked : Option Bool
  deriving DecidableEq, Repr

/-- Handler `getVideoById` of `src/controllers/videoController.js`; `requester` is
`req.user._id` when the optional authentication found a user. -/
def getVideoById (requester : Option Nat) (id : Nat) (s : Store) : Answer VideoView × Store :=
  match Video.findById id s.videos with
  | none => (.message ⟨404, "Video not found"⟩, s)
  | some video =>
    let video := { video with views := video.views + 1 }
    let s1 := { s with videos := Video.saveViews video.id video.views s.videos }
    match requester with
    | none => (.document 200 ⟨video, none⟩, s1)
    | some u =>
      (.document 200 ⟨video, some (s.likes.find? (Like.matchesVideo u id)).isSome⟩, s1)

/-- White space and line terminators of JavaScript, which `parseInt` skips at the
start of its argument and `trim` removes at both ends. -/
def isJsWhiteSpace (c : Char) : Bool :=
  [9, 10, 11, 12, 13, 32, 160, 5760, 8232, 8233, 8239, 8287, 12288, 65279].contains c.toNat
    || (8192 ≤ c.toNat && c.toNat ≤ 8202)

/-- The method `trim` of a JavaScript string. -/
def jsTrim (str : String) : String :=
  String.mk ((str.toList.dropWhile isJsWhiteSpace).reverse.dropWhile isJsWhiteSpace).reverse

/-- The tags of an upload: the field is split at the commas, every piece is trimmed and
the empty pieces are dropped; an absent or empty field gives no tags. -/
def tagArray (tags : Option String) : List String :=
  match tags with
  | none => []
  | some t =>
    if t = "" then []
    else ((t.splitOn ",").map jsTrim).filter (fun tag => decide (tag.length > 0))

/-- Handler `uploadVideo` of `src/controllers/videoController.js`.  `file` is
`req.file.filename` when the upload middleware stored a file, `caption` and `tags` are
the body fields, `newId` and `now` are the `_id` and creation time of the new document. -/
def uploadVideo (userId : Nat) (file caption tags : Option String) (newId now : Nat)
    (s : Store) : Answer Video × Store :=
  match file with
  | none => (.message ⟨400, "Please upload a video file"⟩, s)
  | some filename =>
    match caption with
    | none => (.message ⟨400, "Caption is required"⟩, s)
    | some text =>
      if text = "" then (.message ⟨400, "Caption is required"⟩, s)
      else
        let doc : Video :=
          ⟨newId, userId, "/uploads/videos/" ++ filename, "", text, tagArray tags,
            "Original Sound", 0, 0, 0, 0, now⟩
        match Video.create doc s.videos with
        | .error e => (.message (errorHandler e), s)
        | .ok videos => (.document 201 doc, { s with videos := videos })

/-! ## The list handlers of `src/controllers/videoController.js` -/

/-- The block every list handler runs for an authenticated requester: one
`Like.find` over the ids of the result, then `isLiked` on each video. -/
def attachIsLiked (userId : Nat) (likes : List Like) (videos : List Video) : List VideoView :=
  let videoIds := videos.map (fun v => v.id)
  let found := likes.filter (fun k =>
    k.user == userId &&
      (match k.video with
        | some v => videoIds.contains v
        | none => false))
  let likedVideoIds := found.filterMap (fun k => k.video)
  videos.map (fun v => ⟨v, some (likedVideoIds.contains v.id)⟩)

/-- What the handlers with optional authentication send: with `req.user` the videos
with `isLiked`, without it the videos as found. -/
def assemble (requester : Option Nat) (likes : List Like) (videos : List Video) :
    List VideoView :=
  match requester with
  | some u => attachIsLiked u likes videos
  | none => videos.map (fun v => ⟨v, none⟩)

/-- The value of `parseInt(x) || d`, given the value of `parseInt(x)` (`none` for `NaN`). -/
def orDefault (parsed : Option Int) (d : Int) : Int :=
  match parsed with
  | none => d
  | some n => if n = 0 then d else n

/-- The sort `\x7b createdAt: -1 \x7d`: newest first, equal times in insertion order. -/
def newestFirst (l : List Video) : List Video :=
  l.insertionSort (fun a b => b.createdAt ≤ a.createdAt)

/-- The sort `\x7b views: -1 \x7d`. -/
def mostViewedFirst (l : List Video) : List Video :=
  l.insertionSort (fun a b => b.views ≤ a.views)

/-- The cursor modifiers `.skip(skip).limit(limit)`: the store rejects a negative
skip, and the driver sends a negative limit as its absolute value. -/
def skipLimit (skip limit : Int) (l : List Video) : Except Err (List Video) :=
  if skip < 0 then .error ⟨none, "Skip value must be non-negative"⟩
  else .ok ((l.drop skip.toNat).take limit.natAbs)

/-- Handler `getAllVideos`; `page` and `limit` are the values of
`parseInt(req.query.page)` and `parseInt(req.query.limit)`. -/
def getAllVideos (requester : Option Nat) (page limit : Option Int) (s : Store) :
    Answer (List VideoView) :=
  let page := orDefault page 1
  let limit := orDefault limit 10
  let skip := (page - 1) * limit
  match skipLimit skip limit (newestFirst s.videos) with
  | .error e => .message (errorHandler e)
  | .ok videos => .document 200 (assemble requester s.likes videos)

/-- Handler `getVideosByUser`. -/
def getVideosByUser (requester : Option Nat) (userId : Nat) (s : Store) :
    Answer (List VideoView) :=
  let videos := newestFirst (s.videos.filter (fun v => v.user == userId))
  .document 200 (assemble requester s.likes videos)

/-- Handler `getFollowingVideos`; the route is protected, so there is a requester. -/
def getFollowingVideos (currentUserId : Nat) (page limit : Option Int) (s : Store) :
    Answer (List VideoView) :=
  let following := s.follows.filter (fun f => f.follower == currentUserId)
  let followingIds := following.map (fun f => f.following)
  if followingIds.length = 0 then .document 200 []
  else
    let page := orDefault page 1
    let limit := orDefault limit 10
    let skip := (page - 1) * limit
    match skipLimit skip limit
        (newestFirst (s.videos.filter (fun v => followingIds.contains v.user))) with
    | .error e => .message (errorHandler e)
    | .ok videos => .document 200 (attachIsLiked currentUserId s.likes videos)

/-- Handler `searchVideos`.  `regexI` is the regular expression engine: the
case-insensitive test a pattern stands for, or the error an ill-formed pattern raises. -/
def searchVideos (regexI : String → Except Err (String → Bool)) (requester : Option Nat)
    (query : Option String) (s : Store) : Answer (List VideoView) :=
  match query with
  | none => .message ⟨400, "Search query is required"⟩
  | some q =>
    if q = "" then .message ⟨400, "Search query is required"⟩
    else
      match regexI q with
      | .error e => .message (errorHandler e)
      | .ok test =>
        let videos := mostViewedFirst (s.videos.filter (fun v => test v.caption || v.tags.any test))
        .document 200 (assemble requester s.likes videos)

/-- The videos of a list answer, in the order sent and without the flag; `none` for
an answer that is not a list. -/
def Answer.videos : Answer (List VideoView) → Option (List Video)
  | .message _ => none
  | .document _ views => some (views.map (fun w => w.video))

/-- A Like record with `user = u` and `video = v` is stored. -/
def Store.hasVideoLike (s : Store) (u v : Nat) : Prop :=
  ∃ k ∈ s.likes, k.user = u ∧ k.video = some v

/-- Every view carries `isLiked`, and it is `true` exactly on the videos `u` likes. -/
def Store.flaggedFor (s : Store) (u : Nat) (views : List VideoView) : Prop :=
  ∀ w ∈ views, ∃ b, w.isLiked = some b ∧ (b = true ↔ s.hasVideoLike u w.video.id)

/-- No view carries `isLiked`. -/
def unflagged (views : List VideoView) : Prop :=
  ∀ w ∈ views, w.isLiked = none

/-! ## Derived quantities for comments -/

/-- Number of Comment records whose `video` is `id`, replies included. -/
def videoCommentCount (id : Nat) (l : List Comment) : Nat :=
  l.countP (fun c => c.video == id)

/-- Every video's `comments` equals the number of Comment records on it. -/
def Store.videoCommentsExact (s : Store) : Prop :=
  ∀ v ∈ s.videos, v.comments = (videoCommentCount v.id s.comments : Int)

/-- Object ids are unique inside the comments collection. -/
def Store.commentsUnique (s : Store) : Prop :=
  (s.comments.map (fun c => c.id)).Nodup

/-- The four counters the spec wants clamped are all non-negative. -/
def Store.countersNonneg (s : Store) : Prop :=
  (∀ u ∈ s.users, 0 ≤ u.followers ∧ 0 ≤ u.following) ∧
  (∀ v ∈ s.videos, 0 ≤ v.likes ∧ 0 ≤ v.comments) ∧
  (∀ c ∈ s.comments, 0 ≤ c.likes)

/-! ## The query parameters `page` and `limit` -/

/-- The value of a character as a digit, letters counting from ten. -/
def digitValue (c : Char) : Option Nat :=
  if 48 ≤ c.toNat && c.toNat ≤ 57 then some (c.toNat - 48)
  else if 97 ≤ c.toNat && c.toNat ≤ 122 then some (c.toNat - 97 + 10)
  else if 65 ≤ c.toNat && c.toNat ≤ 90 then some (c.toNat - 65 + 10)
  else none

/-- The digits of the given radix a text starts with. -/
def leadingDigits (radix : Nat) : List Char → List Nat
  | [] => []
  | c :: cs =>
    match digitValue c with
    | some d => if d < radix then d :: leadingDigits radix cs else []
    | none => []

/-- The global function `parseInt` of JavaScript without a radix argument, on a query
parameter that is absent (`none`) or a string: white space is skipped, then a sign,
then `0x` or `0X` selects radix 16, then the digits are read as far as they go; the
result is `none` (`NaN`) when there is no digit.  The number read is taken exactly;
JavaScript rounds it to the nearest double, which differs from 2^53 on. -/
def parseInt (x : Option String) : Option Int :=
  match x with
  | none => none
  | some str =>
    let cs := str.toList.dropWhile isJsWhiteSpace
    let negative := cs.head? == some '-'
    let cs := if cs.head? == some '-' || cs.head? == some '+' then cs.tail else cs
    let hex := cs.take 2 == ['0', 'x'] || cs.take 2 == ['0', 'X']
    let radix := if hex then 16 else 10
    let cs := if hex then cs.drop 2 else cs
    let digits := leadingDigits radix cs
    if digits.isEmpty then none
    else
      let n : Int := (digits.foldl (fun n d => n * radix + d) 0 : Nat)
      some (if negative then -n else n)

/-- The videos of a list answer as a plain list, empty for an answer that is not a
list. -/
def Answer.videoList (a : Answer (List VideoView)) : List Video :=
  a.videos.getD []

/-- Pages `1` to `n` of `getAllVideos` for a limit `l`, one after the other. -/
def firstPages (requester : Option Nat) (l n : Nat) (s : Store) : List Video :=
  ((List.range n).map (fun k =>
    (getAllVideos requester (some ((k + 1 : Nat) : Int)) (some (l : Int)) s).videoList)).flatten

/-! ## A small concrete store -/

/-- User `alice`. -/
def alice : User := ⟨1, "alice", "alice@example.com", "", "", 0, 0⟩

/-- User `bob`. -/
def bob : User := ⟨2, "bob", "bob@example.com", "", "", 0, 0⟩

/-- A video of `alice`. -/
def clip7 : Video :=
  ⟨7, 1, "/uploads/videos/a.mp4", "", "first", [], "Original Sound", 0, 0, 0, 0, 100⟩

/-- Another video of `alice`. -/
def clip8 : Video :=
  ⟨8, 1, "/uploads/videos/b.mp4", "", "second", [], "Original Sound", 0, 0, 0, 0, 101⟩

/-- A comment of `bob` on `clip7`. -/
def note5 : Comment := ⟨5, 7, 2, "nice", 0, none, 102⟩

/-- Two users, two videos, one comment, no edges, all counters zero. -/
def fresh : Store := ⟨[alice, bob], [], [clip7, clip8], [note5], []⟩

/-- Two `likeVideo` requests on `clip7`, by `alice` and by `bob`, both about to start,
over the store `fresh`. -/
def racing : Sys := ⟨[⟨1, 7, .start⟩, ⟨2, 7, .start⟩], fresh⟩

/-- The store after `alice` liked `clip7`. -/
def aliceLiked7 : Store := (likeVideo 1 7 fresh).2

/-- The store `fresh` with a Like record of `bob` on `note5` whose counter was never
raised: the edge exists while `note5.likes = 0`. -/
def uncounted : Store := ⟨[alice, bob], [], [clip7, clip8], [note5], [⟨2, none, some 5⟩]⟩

/-- A store whose counters all agree with its records: `bob` has one comment,
`note5`, on `clip7`, and `clip7.comments` is 1. -/
def tidy : Store :=
  ⟨[alice, bob], [], [{ clip7 with comments := 1 }, clip8], [note5], []⟩

/-- The store `tidy` after `alice` answered `note5`, a comment on `clip7`, from the
page of `clip8`: the reply `6` belongs to `clip8` and has parent `5`. -/
def crossReplied : Store :=
  (addComment 1 8 (some "me too") (some 5) 6 103 tidy).2

/-- The store `tidy` with a reply of `alice` to `note5` on the same video, a Like
record of `alice` on `note5` and one of `bob` on the reply, counters in step. -/
def likedThread : Store :=
  ⟨[alice, bob], [],
    [{ clip7 with comments := 2 }, clip8],
    [{ note5 with likes := 1 }, ⟨6, 7, 1, "thanks", 1, some 5, 103⟩],
    [⟨1, none, some 5⟩, ⟨2, none, some 6⟩]⟩

/-- The store `fresh` with a Follow edge from `bob` to `alice` that the counters do
not show. -/
def unseenEdge : Store := ⟨[alice, bob], [⟨2, 1⟩], [clip7, clip8], [note5], []⟩

/-- A text of 301 characters. -/
def longText : String := String.mk (List.replicate 301 'a')

/-- User `ada`, whose id is `00000000000000000000000a` in hex. -/
def ada : User := ⟨10, "ada", "ada@example.com", "", "", 0, 0⟩

/-- A store with the users `alice`, `bob` and `ada`, no edges, all counters zero. -/
def trio : Store := ⟨[alice, bob, ada], [], [], [], []⟩

/-! ## Lemmas on the store primitives -/

section Primitives

variable {α : Type}

theorem updateOne_length (p : α → Bool) (f : α → α) (l : List α) :
    (updateOne p f l).length = l.length := by
  induction l with
  | nil => rfl
  | cons x xs ih =>
    by_cases hx : p x = true <;> simp [updateOne, hx, ih]

theorem updateOne_map_key {κ : Type} (key : α → κ) (p : α → Bool) (f : α → α)
    (hf : ∀ x, key (f x) = key x) (l : List α) :
    (updateOne p f l).map key = l.map key := by
  induction l with
  | nil => rfl
  | cons x xs ih =>
    by_cases hx : p x = true <;> simp [updateOne, hx, ih, hf]

theorem updateOne_of_forall_not (p : α → Bool) (f : α → α) (l : List α)
    (h : ∀ x ∈ l, ¬ p x = true) : updateOne p f l = l := by
  induction l with
  | nil => rfl
  | cons x xs ih =>
    have hx : ¬ p x = true := h x (List.mem_cons_self _ _)
    have hxs : ∀ y ∈ xs, ¬ p y = true := fun y hy => h y (List.mem_cons_of_mem _ hy)
    simp [updateOne, hx, ih hxs]

theorem find?_updateOne_same (p : α → Bool) (f : α → α) (hf : ∀ x, p (f x) = p x)
    (l : List α) : (updateOne p f l).find? p = (l.find? p).map f := by
  induction l with
  | nil => rfl
  | cons x xs ih =>
    by_cases hx : p x = true
    · simp [updateOne, hx, List.find?_cons, hf]
    · simp [updateOne, hx, List.find?_cons, ih]

theorem find?_updateOne_other (p q : α → Bool) (f : α → α) (hf : ∀ x, q (f x) = q x)
    (hpq : ∀ x, p x = true → ¬ q x = true) (l : List α) :
    (updateOne p f l).find? q = l.find? q := by
  induction l with
  | nil => rfl
  | cons x xs ih =>
    by_cases hx : p x = true
    · have h1 : ¬ q x = true := hpq x hx
      simp [updateOne, hx, List.find?_cons, hf, h1]
    · by_cases hq : q x = true <;> simp [updateOne, hx, List.find?_cons, ih, hq]

theorem updateOne_twice (p : α → Bool) (f g : α → α) (hf : ∀ x, p (f x) = p x)
    (l : List α) : updateOne p g (updateOne p f l) = updateOne p (fun x => g (f x)) l := by
  induction l with
  | nil => rfl
  | cons x xs ih =>
    by_cases hx : p x = true
    · simp [updateOne, hx, hf]
    · simp [updateOne, hx, ih]

theorem updateOne_comm (p q : α → Bool) (f g : α → α)
    (hf : ∀ x, q (f x) = q x) (hg : ∀ x, p (g x) = p x)
    (hpq : ∀ x, p x = true → ¬ q x = true) (l : List α) :
    updateOne p f (updateOne q g l) = updateOne q g (updateOne p f l) := by
  induction l with
  | nil => rfl
  | cons x xs ih =>
    by_cases hx : p x = true
    · have h1 : ¬ q x = true := hpq x hx
      simp [updateOne, hx, h1, hf]
    · by_cases hq : q x = true
      · simp [updateOne, hx, hq, hg]
      · simp [updateOne, hx, hq, ih]

theorem updateOne_fix (p : α → Bool) (f : α → α) (hf : ∀ x, f x = x) (l : List α) :
    updateOne p f l = l := by
  induction l with
  | nil => rfl
  | cons x xs ih =>
    by_cases hx : p x = true <;> simp [updateOne, hx, ih, hf]

/-- With unique keys, updating the first document with key `k` is updating every
document with key `k`. -/
theorem updateOne_eq_map (key : α → Nat) (k : Nat) (f : α → α) (l : List α)
    (hl : (l.map key).Nodup) :
    updateOne (fun x => key x == k) f l = l.map (fun x => if key x = k then f x else x) := by
  induction l with
  | nil => rfl
  | cons x xs ih =>
    have hnd : (xs.map key).Nodup := (List.nodup_cons.mp (by simpa using hl)).2
    have hnot : key x ∉ xs.map key := (List.nodup_cons.mp (by simpa using hl)).1
    by_cases hx : key x = k
    · have hrest : xs.map (fun y => if key y = k then f y else y) = xs := by
        have : ∀ y ∈ xs, (fun y => if key y = k then f y else y) y = y := by
          intro y hy
          have : key y ≠ k := by
            intro hyk
            exact hnot (by rw [hx, ← hyk]; exact List.mem_map_of_mem key hy)
          simp [this]
        calc xs.map (fun y => if key y = k then f y else y) = xs.map id :=
              List.map_congr_left this
          _ = xs := List.map_id xs
      simp [updateOne, hx, hrest]
    · simp [updateOne, hx, ih hnd]

/-- Unique keys: the document found for a key is the only one carrying it. -/
theorem eq_of_find?_of_nodup (key : α → Nat) (k : Nat) (l : List α) (d : α)
    (hl : (l.map key).Nodup) (hd : l.find? (fun x => key x == k) = some d)
    (x : α) (hx : x ∈ l) (hk : key x = k) : x = d := by
  induction l with
  | nil => cases hx
  | cons y ys ih =>
    have hnd : (ys.map key).Nodup := (List.nodup_cons.mp (by simpa using hl)).2
    have hnot : key y ∉ ys.map key := (List.nodup_cons.mp (by simpa using hl)).1
    by_cases hy : key y = k
    · have hdy : y = d := by simpa [List.find?_cons, hy] using hd
      rcases List.mem_cons.mp hx with h | h
      · rw [h, hdy]
      · exact absurd (by rw [hy, ← hk]; exact List.mem_map_of_mem key h) hnot
    · have hd2 : ys.find? (fun x => key x == k) = some d := by
        simpa [List.find?_cons, hy] using hd
      rcases List.mem_cons.mp hx with h | h
      · exact absurd (h ▸ hk) hy
      · exact ih hnd hd2 h

/-- Deleting the first match lowers by one the count of any property every match has. -/
theorem countP_eraseP_of_imp (p q : α → Bool) (l : List α) (hex : ∃ x ∈ l, p x = true)
    (hpq : ∀ x, p x = true → q x = true) :
    (l.eraseP p).countP q + 1 = l.countP q := by
  obtain ⟨x, hx, hpx⟩ := hex
  obtain ⟨a, l₁, l₂, _, hpa, hl, he⟩ := List.exists_of_eraseP hx hpx
  rw [he, hl]
  simp [List.countP_append, List.countP_cons, hpq a hpa]
  omega

/-- Deleting the first match keeps the count of any property no match has. -/
theorem countP_eraseP_of_not (p q : α → Bool) (l : List α)
    (hpq : ∀ x, p x = true → ¬ q x = true) :
    (l.eraseP p).countP q = l.countP q := by
  by_cases hex : ∃ x ∈ l, p x = true
  · obtain ⟨x, hx, hpx⟩ := hex
    obtain ⟨a, l₁, l₂, _, hpa, hl, he⟩ := List.exists_of_eraseP hx hpx
    rw [he, hl]
    simp [List.countP_append, List.countP_cons, hpq a hpa]
  · rw [List.eraseP_of_forall_not (fun a ha hpa => hex ⟨a, ha, hpa⟩)]

end Primitives

/-! ## Follow edges -/

theorem Follow.matches_iff (a b : Nat) (f : Follow) :
    Follow.matches a b f = true ↔ f = ⟨a, b⟩ := by
  cases f with
  | mk x y => simp [Follow.matches]

theorem Follow.findOne_eq_none_iff (a b : Nat) (l : List Follow) :
    Follow.findOne a b l = none ↔ (⟨a, b⟩ : Follow) ∉ l := by
  unfold Follow.findOne
  rw [List.find?_eq_none]
  constructor
  · intro h hmem
    exact h _ hmem ((Follow.matches_iff a b _).mpr rfl)
  · intro h x hx hm
    exact h ((Follow.matches_iff a b x).mp hm ▸ hx)

theorem Follow.findOne_isSome_of_mem (a b : Nat) (l : List Follow)
    (h : (⟨a, b⟩ : Follow) ∈ l) : ∃ f, Follow.findOne a b l = some f := by
  cases hf : Follow.findOne a b l with
  | none => exact absurd h ((Follow.findOne_eq_none_iff a b l).mp hf)
  | some f => exact ⟨f, rfl⟩

theorem Follow.create_of_not_mem (a b : Nat) (l : List Follow)
    (h : (⟨a, b⟩ : Follow) ∉ l) : Follow.create ⟨a, b⟩ l = .ok (l ++ [⟨a, b⟩]) := by
  have hany : l.any (Follow.matches a b) = false := by
    rw [Bool.eq_false_iff]
    intro hc
    obtain ⟨x, hx, hm⟩ := List.any_eq_true.mp hc
    exact h ((Follow.matches_iff a b x).mp hm ▸ hx)
  simp [Follow.create, hany]

/-! ### Request strings and the ids they name -/

theorem hexValue_hexChar (d : Nat) (h : d < 16) : hexValue (hexChar d) = some d := by
  revert d
  decide

theorem highHexDigits_zero (fuel : Nat) : highHexDigits fuel 0 = [] := by
  cases fuel <;> simp [highHexDigits]

theorem highHexDigits_ne_nil (fuel m : Nat) (hf : fuel ≠ 0) (hm : m ≠ 0) :
    highHexDigits fuel m ≠ [] := by
  cases fuel with
  | zero => exact absurd rfl hf
  | succ k => simp [highHexDigits, hm]

theorem lowHexDigits_length (k n : Nat) : (lowHexDigits k n).length = k := by
  simp [lowHexDigits]

theorem lowHexDigits_succ (k n : Nat) :
    lowHexDigits (k + 1) n = hexChar (n / 16 ^ k % 16) :: lowHexDigits k n := by
  simp [lowHexDigits, List.range_succ]

theorem foldl_hexStep_lowHexDigits (k n m : Nat) :
    (lowHexDigits k n).foldl hexStep (some m) = some (m * 16 ^ k + n % 16 ^ k) := by
  induction k generalizing m with
  | zero => simp [lowHexDigits, Nat.mod_one]
  | succ k ih =>
    have hd : n / 16 ^ k % 16 < 16 := Nat.mod_lt _ (by decide)
    rw [lowHexDigits_succ, List.foldl_cons]
    have hstep : hexStep (some m) (hexChar (n / 16 ^ k % 16))
        = some (m * 16 + n / 16 ^ k % 16) := by
      simp [hexStep, hexValue_hexChar _ hd]
    rw [hstep, ih, Nat.mod_pow_succ]
    congr 1
    ring

/-- A string that is `toString()` of an id casts to that id and to no other. -/
theorem castObjectId_toString (a b : Nat)
    (h : castObjectId (ObjectId.toString a) = some b) : a = b := by
  have htl : (ObjectId.toString a).toList
      = highHexDigits a (a / 16 ^ 24) ++ lowHexDigits 24 a := rfl
  unfold castObjectId at h
  rw [htl] at h
  simp only [List.length_append, lowHexDigits_length] at h
  by_cases hlt : a < 16 ^ 24
  · have hz : a / 16 ^ 24 = 0 := Nat.div_eq_of_lt hlt
    rw [hz, highHexDigits_zero] at h
    simp only [List.length_nil, Nat.zero_add, if_true, List.nil_append] at h
    rw [foldl_hexStep_lowHexDigits, Nat.mod_eq_of_lt hlt] at h
    simpa using h
  · exfalso
    have hN : 0 < 16 ^ 24 := by decide
    have hle : 16 ^ 24 ≤ a := Nat.le_of_not_lt hlt
    have hpos : a / 16 ^ 24 ≠ 0 := Nat.pos_iff_ne_zero.mp (Nat.div_pos hle hN)
    have ha : a ≠ 0 := by omega
    have hnil := highHexDigits_ne_nil a (a / 16 ^ 24) ha hpos
    have hlen : (highHexDigits a (a / 16 ^ 24)).length ≠ 0 := by
      intro h0
      exact hnil (List.length_eq_zero.mp h0)
    have hne : ¬ (highHexDigits a (a / 16 ^ 24)).length + 24 = 24 := by omega
    rw [if_neg hne] at h
    cases h

/-- The string `toString()` writes for an ObjectId casts back to it, so every id of
twelve bytes is named by some request string. -/
theorem castObjectId_toString_of_lt (n : Nat) (h : n < 16 ^ 24) :
    castObjectId (ObjectId.toString n) = some n := by
  have htl : (ObjectId.toString n).toList
      = highHexDigits n (n / 16 ^ 24) ++ lowHexDigits 24 n := rfl
  unfold castObjectId
  rw [htl, Nat.div_eq_of_lt h, highHexDigits_zero]
  simp only [List.nil_append, lowHexDigits_length, if_true]
  rw [foldl_hexStep_lowHexDigits, Nat.mod_eq_of_lt h]
  simp

/-- A string naming another id than the requester's is not the requester's own
`toString()`. -/
theorem ne_toString_of_cast (a b : Nat) (q : String) (hq : castObjectId q = some b)
    (hab : a ≠ b) : q ≠ ObjectId.toString a := by
  intro h
  rw [h] at hq
  exact hab (castObjectId_toString a b hq)

/-- The successful path of `followUser`, with the store it writes. -/
theorem followUser_ok (s : Store) (a b : Nat) (q : String) (ub : User)
    (hq : castObjectId q = some b) (hg : q ≠ ObjectId.toString a)
    (hb : User.findById b s.users = some ub) (hno : (⟨a, b⟩ : Follow) ∉ s.follows) :
    followUser a q s =
      (⟨200, "Successfully followed user"⟩,
        { s with follows := s.follows ++ [⟨a, b⟩],
                 users := User.incFollowing a 1 (User.incFollowers b 1 s.users) }) := by
  simp [followUser, hg, hq, hb, (Follow.findOne_eq_none_iff a b s.follows).mpr hno,
    Follow.create_of_not_mem a b s.follows hno]

/-- The successful path of `unfollowUser`, with the store it writes. -/
theorem unfollowUser_ok (s : Store) (a b : Nat) (q : String) (ub : User)
    (hq : castObjectId q = some b) (hg : q ≠ ObjectId.toString a)
    (hb : User.findById b s.users = some ub) (hmem : (⟨a, b⟩ : Follow) ∈ s.follows) :
    unfollowUser a q s =
      (⟨200, "Successfully unfollowed user"⟩,
        { s with follows := s.follows.eraseP (Follow.matches a b),
                 users := User.incFollowing a (-1) (User.incFollowers b (-1) s.users) }) := by
  obtain ⟨f, hf⟩ := Follow.findOne_isSome_of_mem a b s.follows hmem
  simp [unfollowUser, hg, hq, hb, hf, Follow.findOneAndDelete]

/-- Every path of `followUser` other than the successful one leaves the store as it is. -/
theorem followUser_store_cases (s : Store) (a : Nat) (q : String) :
    (followUser a q s).2 = s ∨
      ∃ b, castObjectId q = some b ∧ q ≠ ObjectId.toString a ∧
        (∃ ub, User.findById b s.users = some ub) ∧ (⟨a, b⟩ : Follow) ∉ s.follows ∧
        (followUser a q s).2 =
          { s with follows := s.follows ++ [⟨a, b⟩],
                   users := User.incFollowing a 1 (User.incFollowers b 1 s.users) } := by
  by_cases hg : q = ObjectId.toString a
  · left; simp [followUser, hg]
  · cases hq : castObjectId q with
    | none => left; simp [followUser, hg, hq]
    | some b =>
      cases hb : User.findById b s.users with
      | none => left; simp [followUser, hg, hq, hb]
      | some ub =>
        by_cases hmem : (⟨a, b⟩ : Follow) ∈ s.follows
        · obtain ⟨f, hf⟩ := Follow.findOne_isSome_of_mem a b s.follows hmem
          left; simp [followUser, hg, hq, hb, hf]
        · right
          refine ⟨b, rfl, hg, ⟨ub, hb⟩, hmem, ?_⟩
          rw [followUser_ok s a b q ub hq hg hb hmem]

/-- Every path of `unfollowUser` other than the successful one leaves the store as it is. -/
theorem unfollowUser_store_cases (s : Store) (a : Nat) (q : String) :
    (unfollowUser a q s).2 = s ∨
      ∃ b, castObjectId q = some b ∧ q ≠ ObjectId.toString a ∧
        (∃ ub, User.findById b s.users = some ub) ∧ (⟨a, b⟩ : Follow) ∈ s.follows ∧
        (unfollowUser a q s).2 =
          { s with follows := s.follows.eraseP (Follow.matches a b),
                   users := User.incFollowing a (-1) (User.incFollowers b (-1) s.users) } := by
  by_cases hg : q = ObjectId.toString a
  · left; simp [unfollowUser, hg]
  · cases hq : castObjectId q with
    | none => left; simp [unfollowUser, hg, hq]
    | some b =>
      cases hb : User.findById b s.users with
      | none => left; simp [unfollowUser, hg, hq, hb]
      | some ub =>
        by_cases hmem : (⟨a, b⟩ : Follow) ∈ s.follows
        · right
          refine ⟨b, rfl, hg, ⟨ub, hb⟩, hmem, ?_⟩
          rw [unfollowUser_ok s a b q ub hq hg hb hmem]
        · left
          simp [unfollowUser, hg, hq, hb,
            (Follow.findOne_eq_none_iff a b s.follows).mpr hmem]

/-- With unique user ids the two counter updates of a follow or unfollow add `d` to
`followers` of the target and to `following` of the requester, also when the two are
the same document, and touch nothing else. -/
theorem incFollowing_incFollowers_eq_map_any (l : List User) (a b : Nat) (d : Int)
    (hl : (l.map (fun u => u.id)).Nodup) :
    User.incFollowing a d (User.incFollowers b d l) =
      l.map (fun u =>
        { u with followers := u.followers + (if u.id = b then d else 0),
                 following := u.following + (if u.id = a then d else 0) }) := by
  unfold User.incFollowing User.incFollowers
  have h1 := updateOne_eq_map (fun u : User => u.id) b
    (fun u => { u with followers := u.followers + d }) l hl
  have hl2 : ((updateOne (fun u : User => u.id == b)
      (fun u => { u with followers := u.followers + d }) l).map (fun u => u.id)).Nodup := by
    have hk := updateOne_map_key (fun u : User => u.id) (fun u : User => u.id == b)
      (fun u => { u with followers := u.followers + d }) (fun _ => rfl) l
    rw [hk]
    exact hl
  have h2 := updateOne_eq_map (fun u : User => u.id) a
    (fun u => { u with following := u.following + d }) _ hl2
  rw [h2, h1, List.map_map]
  apply List.map_congr_left
  intro u _
  cases u with
  | mk id username email bio avatar followers following =>
    simp only [Function.comp_apply]
    split_ifs <;> simp_all

/-- With unique user ids the two counter updates of a follow or unfollow touch exactly
the documents of the target and of the requester. -/
theorem incFollowing_incFollowers_eq_map (l : List User) (a b : Nat) (d : Int) (hab : a ≠ b)
    (hl : (l.map (fun u => u.id)).Nodup) :
    User.incFollowing a d (User.incFollowers b d l) =
      l.map (fun u =>
        if u.id = b then { u with followers := u.followers + d }
        else if u.id = a then { u with following := u.following + d } else u) := by
  unfold User.incFollowing User.incFollowers
  have h1 := updateOne_eq_map (fun u : User => u.id) b
    (fun u => { u with followers := u.followers + d }) l hl
  have hl2 : ((updateOne (fun u : User => u.id == b)
      (fun u => { u with followers := u.followers + d }) l).map (fun u => u.id)).Nodup := by
    have hk := updateOne_map_key (fun u : User => u.id) (fun u : User => u.id == b)
      (fun u => { u with followers := u.followers + d }) (fun _ => rfl) l
    rw [hk]
    exact hl
  have h2 := updateOne_eq_map (fun u : User => u.id) a
    (fun u => { u with following := u.following + d }) _ hl2
  rw [h2, h1, List.map_map]
  apply List.map_congr_left
  intro u _
  by_cases hub : u.id = b
  · have hua : ¬ b = a := fun h => hab h.symm
    simp [hub, hua]
  · simp [hub]

theorem User.findById_incFollowers (l : List User) (b x : Nat) (d : Int) :
    User.findById x (User.incFollowers b d l) =
      (User.findById x l).map
        (fun u => if x = b then { u with followers := u.followers + d } else u) := by
  unfold User.findById User.incFollowers
  by_cases hx : x = b
  · subst hx
    simp only [if_true]
    exact find?_updateOne_same (fun u : User => u.id == x)
      (fun u => { u with followers := u.followers + d }) (fun _ => rfl) l
  · have h := find?_updateOne_other (fun u : User => u.id == b) (fun u : User => u.id == x)
      (fun u => { u with followers := u.followers + d }) (fun _ => rfl)
      (by
        intro u hu hq
        have h1 : u.id = b := by simpa using hu
        have h2 : u.id = x := by simpa using hq
        exact hx (h2 ▸ h1)) l
    rw [h]
    simp [hx]

theorem User.findById_incFollowing (l : List User) (a x : Nat) (d : Int) :
    User.findById x (User.incFollowing a d l) =
      (User.findById x l).map
        (fun u => if x = a then { u with following := u.following + d } else u) := by
  unfold User.findById User.incFollowing
  by_cases hx : x = a
  · subst hx
    simp only [if_true]
    exact find?_updateOne_same (fun u : User => u.id == x)
      (fun u => { u with following := u.following + d }) (fun _ => rfl) l
  · have h := find?_updateOne_other (fun u : User => u.id == a) (fun u : User => u.id == x)
      (fun u => { u with following := u.following + d }) (fun _ => rfl)
      (by
        intro u hu hq
        have h1 : u.id = a := by simpa using hu
        have h2 : u.id = x := by simpa using hq
        exact hx (h2 ▸ h1)) l
    rw [h]
    simp [hx]

/-! ## Theorems on `followUser` and `unfollowUser` -/

/-- C1: for distinct existing users `a` (requester) and `b` (target) with no Follow
edge `(a, b)`, `followUser`, called with any string that names `b`, answers 200,
appends exactly the edge `(a, b)`, raises `b.followers` by one and `a.following` by
one, and every other user document, every other field of the two, and every other
collection is left as it was. -/
theorem followUser_creates_edge_and_counts (s : Store) (a b : Nat) (q : String)
    (ua ub : User) (hq : castObjectId q = some b)
    (hab : a ≠ b) (huniq : s.usersUnique)
    (ha : User.findById a s.users = some ua) (hb : User.findById b s.users = some ub)
    (hno : (⟨a, b⟩ : Follow) ∉ s.follows) :
    (followUser a q s).1 = ⟨200, "Successfully followed user"⟩ ∧
    (followUser a q s).2.follows = s.follows ++ [⟨a, b⟩] ∧
    User.findById b (followUser a q s).2.users
      = some { ub with followers := ub.followers + 1 } ∧
    User.findById a (followUser a q s).2.users
      = some { ua with following := ua.following + 1 } ∧
    (followUser a q s).2.users = s.users.map (fun u =>
      if u.id = b then { u with followers := u.followers + 1 }
      else if u.id = a then { u with following := u.following + 1 } else u) ∧
    (followUser a q s).2.videos = s.videos ∧
    (followUser a q s).2.comments = s.comments ∧
    (followUser a q s).2.likes = s.likes := by
  have hba : ¬ b = a := fun h => hab h.symm
  rw [followUser_ok s a b q ub hq (ne_toString_of_cast a b q hq hab) hb hno]
  refine ⟨rfl, rfl, ?_, ?_, ?_, rfl, rfl, rfl⟩
  · simp [User.findById_incFollowing, User.findById_incFollowers, hb, hba]
  · simp [User.findById_incFollowing, User.findById_incFollowers, ha, hab]
  · exact incFollowing_incFollowers_eq_map s.users a b 1 hab huniq

/-- C1 at the store `fresh`: `bob` follows `alice`, named by her id as `toString()`
writes it. -/
theorem followUser_creates_edge_and_counts_witness :
    ObjectId.toString 1 = "000000000000000000000001" ∧
    (followUser 2 "000000000000000000000001" fresh).1
      = ⟨200, "Successfully followed user"⟩ ∧
    (followUser 2 "000000000000000000000001" fresh).2.follows = fresh.follows ++ [⟨2, 1⟩] ∧
    User.findById 1 (followUser 2 "000000000000000000000001" fresh).2.users
      = some { alice with followers := alice.followers + 1 } ∧
    User.findById 2 (followUser 2 "000000000000000000000001" fresh).2.users
      = some { bob with following := bob.following + 1 } ∧
    (followUser 2 "000000000000000000000001" fresh).2.users = fresh.users.map (fun u =>
      if u.id = 1 then { u with followers := u.followers + 1 }
      else if u.id = 2 then { u with following := u.following + 1 } else u) ∧
    (followUser 2 "000000000000000000000001" fresh).2.videos = fresh.videos ∧
    (followUser 2 "000000000000000000000001" fresh).2.comments = fresh.comments ∧
    (followUser 2 "000000000000000000000001" fresh).2.likes = fresh.likes :=
  ⟨rfl, followUser_creates_edge_and_counts fresh 2 1 "000000000000000000000001" bob alice
    rfl (by decide) (by simp [Store.usersUnique, fresh, alice, bob]) rfl rfl
    (by simp [fresh])⟩

/-! ### Edge counts under the two edge writes -/

theorem followersCount_append_single (x a b : Nat) (l : List Follow) :
    followersCount x (l ++ [⟨a, b⟩]) = followersCount x l + (if b = x then 1 else 0) := by
  simp [followersCount, List.countP_append, List.countP_cons]

theorem followingCount_append_single (x a b : Nat) (l : List Follow) :
    followingCount x (l ++ [⟨a, b⟩]) = followingCount x l + (if a = x then 1 else 0) := by
  simp [followingCount, List.countP_append, List.countP_cons]

theorem followersCount_eraseP (x a b : Nat) (l : List Follow) (h : (⟨a, b⟩ : Follow) ∈ l) :
    followersCount x (l.eraseP (Follow.matches a b)) + (if b = x then 1 else 0)
      = followersCount x l := by
  unfold followersCount
  by_cases hx : b = x
  · subst hx
    rw [if_pos rfl]
    apply countP_eraseP_of_imp
    · exact ⟨⟨a, b⟩, h, (Follow.matches_iff a b _).mpr rfl⟩
    · intro f hf
      rw [(Follow.matches_iff a b f).mp hf]
      simp
  · rw [if_neg hx, Nat.add_zero]
    apply countP_eraseP_of_not
    intro f hf
    rw [(Follow.matches_iff a b f).mp hf]
    simp [hx]

theorem followingCount_eraseP (x a b : Nat) (l : List Follow) (h : (⟨a, b⟩ : Follow) ∈ l) :
    followingCount x (l.eraseP (Follow.matches a b)) + (if a = x then 1 else 0)
      = followingCount x l := by
  unfold followingCount
  by_cases hx : a = x
  · subst hx
    rw [if_pos rfl]
    apply countP_eraseP_of_imp
    · exact ⟨⟨a, b⟩, h, (Follow.matches_iff a b _).mpr rfl⟩
    · intro f hf
      rw [(Follow.matches_iff a b f).mp hf]
      simp
  · rw [if_neg hx, Nat.add_zero]
    apply countP_eraseP_of_not
    intro f hf
    rw [(Follow.matches_iff a b f).mp hf]
    simp [hx]

theorem followUser_usersUnique (s : Store) (a : Nat) (q : String) (h : s.usersUnique) :
    (followUser a q s).2.usersUnique := by
  rcases followUser_store_cases s a q with h1 | ⟨b, _, _, _, _, h1⟩
  · rw [h1]; exact h
  · rw [h1]
    unfold Store.usersUnique User.incFollowing User.incFollowers
    simp only
    rw [updateOne_map_key (fun u : User => u.id) (fun u : User => u.id == a)
        (fun u => { u with following := u.following + 1 }) (fun _ => rfl),
      updateOne_map_key (fun u : User => u.id) (fun u : User => u.id == b)
        (fun u => { u with followers := u.followers + 1 }) (fun _ => rfl)]
    exact h

theorem unfollowUser_usersUnique (s : Store) (a : Nat) (q : String) (h : s.usersUnique) :
    (unfollowUser a q s).2.usersUnique := by
  rcases unfollowUser_store_cases s a q with h1 | ⟨b, _, _, _, _, h1⟩
  · rw [h1]; exact h
  · rw [h1]
    unfold Store.usersUnique User.incFollowing User.incFollowers
    simp only
    rw [updateOne_map_key (fun u : User => u.id) (fun u : User => u.id == a)
        (fun u => { u with following := u.following + -1 }) (fun _ => rfl),
      updateOne_map_key (fun u : User => u.id) (fun u : User => u.id == b)
        (fun u => { u with followers := u.followers + -1 }) (fun _ => rfl)]
    exact h

theorem followUser_followCountersExact (s : Store) (a : Nat) (q : String)
    (hu : s.usersUnique) (h : s.followCountersExact) :
    (followUser a q s).2.followCountersExact := by
  rcases followUser_store_cases s a q with h1 | ⟨b, _, _, _, _, h1⟩
  · rw [h1]; exact h
  · rw [h1]
    intro u hmem
    simp only at hmem
    rw [incFollowing_incFollowers_eq_map_any s.users a b 1 hu] at hmem
    obtain ⟨u0, hu0, rfl⟩ := List.mem_map.mp hmem
    obtain ⟨hf1, hf2⟩ := h u0 hu0
    simp only
    rw [followersCount_append_single, followingCount_append_single, hf1, hf2]
    constructor
    · by_cases hb : u0.id = b
      · rw [if_pos hb, if_pos hb.symm]; push_cast; ring
      · rw [if_neg hb, if_neg (fun e => hb e.symm)]; push_cast; ring
    · by_cases ha : u0.id = a
      · rw [if_pos ha, if_pos ha.symm]; push_cast; ring
      · rw [if_neg ha, if_neg (fun e => ha e.symm)]; push_cast; ring

theorem unfollowUser_followCountersExact (s : Store) (a : Nat) (q : String)
    (hu : s.usersUnique) (h : s.followCountersExact) :
    (unfollowUser a q s).2.followCountersExact := by
  rcases unfollowUser_store_cases s a q with h1 | ⟨b, _, _, _, hin, h1⟩
  · rw [h1]; exact h
  · rw [h1]
    intro u hmem
    simp only at hmem
    rw [incFollowing_incFollowers_eq_map_any s.users a b (-1) hu] at hmem
    obtain ⟨u0, hu0, rfl⟩ := List.mem_map.mp hmem
    obtain ⟨hf1, hf2⟩ := h u0 hu0
    have e1 := followersCount_eraseP u0.id a b s.follows hin
    have e2 := followingCount_eraseP u0.id a b s.follows hin
    simp only
    rw [hf1, hf2]
    constructor
    · by_cases hb : u0.id = b
      · rw [if_pos hb.symm] at e1
        rw [if_pos hb]
        omega
      · rw [if_neg (fun e => hb e.symm)] at e1
        rw [if_neg hb]
        omega
    · by_cases ha : u0.id = a
      · rw [if_pos ha.symm] at e2
        rw [if_pos ha]
        omega
      · rw [if_neg (fun e => ha e.symm)] at e2
        rw [if_neg ha]
        omega

theorem FollowCall.apply_preserves (c : FollowCall) (s : Store)
    (h : s.usersUnique ∧ s.followCountersExact) :
    (c.apply s).usersUnique ∧ (c.apply s).followCountersExact := by
  cases c with
  | follow a q =>
    exact ⟨followUser_usersUnique s a q h.1, followUser_followCountersExact s a q h.1 h.2⟩
  | unfollow a q =>
    exact ⟨unfollowUser_usersUnique s a q h.1, unfollowUser_followCountersExact s a q h.1 h.2⟩

theorem FollowCall.history_preserves (calls : List FollowCall) (s : Store)
    (h : s.usersUnique ∧ s.followCountersExact) :
    (calls.foldl (fun s c => c.apply s) s).usersUnique ∧
      (calls.foldl (fun s c => c.apply s) s).followCountersExact := by
  induction calls generalizing s with
  | nil => exact h
  | cons c cs ih => exact ih (c.apply s) (FollowCall.apply_preserves c s h)

/-- C2: from a store with unique user ids in which every user's `followers` and
`following` equal the live counts of Follow edges into and out of that user, every
finite sequence of `followUser` and `unfollowUser` calls, by any requester with any
request string and whatever each one answers, ends in a store where the same
equalities hold for every user. -/
theorem follow_counters_match_edges (calls : List FollowCall) (s : Store)
    (hu : s.usersUnique) (h : s.followCountersExact) :
    (calls.foldl (fun s c => c.apply s) s).followCountersExact :=
  (FollowCall.history_preserves calls s ⟨hu, h⟩).2

/-- C2 on a history from `trio` that mixes successful calls with a repeated follow,
an unfollow of an absent edge, a self-follow in both spellings of the own id, a call
on an unknown id and one on a string that is no id. -/
theorem follow_counters_match_edges_witness :
    (([.follow 2 "000000000000000000000001", .follow 2 "000000000000000000000001",
        .unfollow 1 "000000000000000000000002", .follow 1 "000000000000000000000002",
        .follow 10 "00000000000000000000000a", .follow 10 "00000000000000000000000A",
        .unfollow 2 "000000000000000000000001", .follow 2 "000000000000000000000009",
        .follow 2 "me"] : List FollowCall).foldl
      (fun s c => c.apply s) trio).followCountersExact :=
  follow_counters_match_edges _ trio
    (by simp [Store.usersUnique, trio, alice, bob, ada])
    (by unfold Store.followCountersExact; decide)

/-- C3: when the Follow edge `(a, b)` is already stored, `followUser` by `a` with any
string that names `b` leaves the whole store as it is, and for an existing target `b`
other than `a` the answer is 400 "You are already following this user". -/
theorem followUser_duplicate_rejected (s : Store) (a b : Nat) (q : String)
    (hq : castObjectId q = some b) (hmem : (⟨a, b⟩ : Follow) ∈ s.follows) :
    (followUser a q s).2 = s ∧
    (a ≠ b → (∃ ub, User.findById b s.users = some ub) →
      (followUser a q s).1 = ⟨400, "You are already following this user"⟩) := by
  constructor
  · rcases followUser_store_cases s a q with h1 | ⟨b2, hq2, _, _, hno, _⟩
    · exact h1
    · rw [hq] at hq2
      cases hq2
      exact absurd hmem hno
  · rintro hab ⟨ub, hb⟩
    obtain ⟨f, hf⟩ := Follow.findOne_isSome_of_mem a b s.follows hmem
    simp [followUser, ne_toString_of_cast a b q hq hab, hq, hb, hf]

/-- C3 on the store reached from `fresh` once `bob` follows `alice`: the second
attempt is refused and `alice.followers`, `bob.following` stay at 1. -/
theorem followUser_duplicate_rejected_witness :
    followUser 2 "000000000000000000000001" (followUser 2 "000000000000000000000001" fresh).2
        = (⟨400, "You are already following this user"⟩,
            (followUser 2 "000000000000000000000001" fresh).2) ∧
      (User.findById 1 (followUser 2 "000000000000000000000001"
          (followUser 2 "000000000000000000000001" fresh).2).2.users).map
        (fun u => u.followers) = some 1 ∧
      (User.findById 2 (followUser 2 "000000000000000000000001"
          (followUser 2 "000000000000000000000001" fresh).2).2.users).map
        (fun u => u.following) = some 1 ∧
      (followUser 2 "000000000000000000000001"
        (followUser 2 "000000000000000000000001" fresh).2).2.follows = [⟨2, 1⟩] := by
  have h := followUser_duplicate_rejected (followUser 2 "000000000000000000000001" fresh).2
    2 1 "000000000000000000000001" rfl (by decide)
  refine ⟨Prod.ext (h.2 (by decide) ⟨_, rfl⟩) h.1, ?_, ?_, ?_⟩
  · rw [h.1]; rfl
  · rw [h.1]; rfl
  · rw [h.1]; rfl

/-- The self test of `followUser` refuses the requester's own id when the request
spells it as `toString()` does. -/
theorem followUser_own_toString_refused (s : Store) (a : Nat) :
    followUser a (ObjectId.toString a) s = (⟨400, "You cannot follow yourself"⟩, s) := by
  simp [followUser]

/-- C4, the code at the failing input: `ada` has the id `00000000000000000000000a`.
With the request string spelled that way `followUser` by `ada` answers 400 "You
cannot follow yourself".  With the same id in upper case the string test fails, the
store casts the string to the id of `ada`, and the call answers 200, stores the edge
`(ada, ada)` and raises her `followers` and `following` to 1. -/
theorem followUser_own_id_in_upper_case :
    ObjectId.toString 10 = "00000000000000000000000a" ∧
    castObjectId "00000000000000000000000A" = some 10 ∧
    User.findById 10 trio.users = some ada ∧
    followUser 10 "00000000000000000000000a" trio
      = (⟨400, "You cannot follow yourself"⟩, trio) ∧
    (followUser 10 "00000000000000000000000A" trio).1
      = ⟨200, "Successfully followed user"⟩ ∧
    (followUser 10 "00000000000000000000000A" trio).2.follows = [⟨10, 10⟩] ∧
    User.findById 10 (followUser 10 "00000000000000000000000A" trio).2.users
      = some { ada with followers := 1, following := 1 } := by
  refine ⟨rfl, rfl, rfl, rfl, rfl, rfl, rfl⟩

/-- The lookups that `unfollowUser` repeats right after a successful `followUser`. -/
theorem followUser_status_ok (s : Store) (a : Nat) (q : String)
    (h : (followUser a q s).1.status = 200) :
    ∃ b, castObjectId q = some b ∧ q ≠ ObjectId.toString a ∧
      (∃ ub, User.findById b s.users = some ub) ∧ (⟨a, b⟩ : Follow) ∉ s.follows := by
  by_cases hg : q = ObjectId.toString a
  · simp [followUser, hg] at h
  · cases hq : castObjectId q with
    | none => simp [followUser, hg, hq, errorHandler, castError] at h
    | some b =>
      cases hb : User.findById b s.users with
      | none => simp [followUser, hg, hq, hb] at h
      | some ub =>
        by_cases hmem : (⟨a, b⟩ : Follow) ∈ s.follows
        · obtain ⟨f, hf⟩ := Follow.findOne_isSome_of_mem a b s.follows hmem
          simp [followUser, hg, hq, hb, hf] at h
        · exact ⟨b, rfl, hg, ⟨ub, hb⟩, hmem⟩

/-- Four updates of the same document that compose to the identity change nothing. -/
theorem updateOne_four {α : Type} (p : α → Bool) (f1 f2 f3 f4 : α → α)
    (h1 : ∀ x, p (f1 x) = p x) (h2 : ∀ x, p (f2 x) = p x) (h3 : ∀ x, p (f3 x) = p x)
    (hid : ∀ x, f4 (f3 (f2 (f1 x))) = x) (l : List α) :
    updateOne p f4 (updateOne p f3 (updateOne p f2 (updateOne p f1 l))) = l := by
  rw [updateOne_twice p f1 f2 h1, updateOne_twice p (fun x => f2 (f1 x)) f3
      (fun x => by rw [h2, h1]),
    updateOne_twice p (fun x => f3 (f2 (f1 x))) f4 (fun x => by rw [h3, h2, h1])]
  exact updateOne_fix p _ hid l

/-- The four counter updates of a follow and the unfollow after it cancel, also when
requester and target are the same document. -/
theorem incFollow_roundtrip (l : List User) (a b : Nat) :
    User.incFollowing a (-1) (User.incFollowers b (-1)
      (User.incFollowing a 1 (User.incFollowers b 1 l))) = l := by
  unfold User.incFollowing User.incFollowers
  by_cases hab : a = b
  · subst hab
    exact updateOne_four (fun u : User => u.id == a)
      (fun u => { u with followers := u.followers + 1 })
      (fun u => { u with following := u.following + 1 })
      (fun u => { u with followers := u.followers + -1 })
      (fun u => { u with following := u.following + -1 })
      (fun _ => rfl) (fun _ => rfl) (fun _ => rfl) (by intro u; cases u; simp) l
  · rw [updateOne_comm (fun u : User => u.id == b) (fun u : User => u.id == a)
        (fun u => { u with followers := u.followers + -1 })
        (fun u => { u with following := u.following + 1 }) (fun _ => rfl) (fun _ => rfl)
        (by
          intro u hu hq
          have h1 : u.id = b := by simpa using hu
          have h2 : u.id = a := by simpa using hq
          exact hab (h2.symm.trans h1)),
      updateOne_twice (fun u : User => u.id == b)
        (fun u => { u with followers := u.followers + 1 })
        (fun u => { u with followers := u.followers + -1 }) (fun _ => rfl),
      updateOne_twice (fun u : User => u.id == a)
        (fun u => { u with following := u.following + 1 })
        (fun u => { u with following := u.following + -1 }) (fun _ => rfl),
      updateOne_fix (fun u : User => u.id == b) _ (by intro u; cases u; simp),
      updateOne_fix (fun u : User => u.id == a) _ (by intro u; cases u; simp)]

/-- C5: whenever `followUser` by `a` with the request string `q` succeeds, the
target's `followers` and the requester's `following` are one higher in the store it
leaves, and `unfollowUser` by `a` with the same string run next also succeeds and
gives back exactly the original store. -/
theorem follow_then_unfollow_restores (s : Store) (a : Nat) (q : String)
    (h : (followUser a q s).1.status = 200) :
    unfollowUser a q (followUser a q s).2 = (⟨200, "Successfully unfollowed user"⟩, s) ∧
    (∀ b, castObjectId q = some b →
      (User.findById b (followUser a q s).2.users).map (fun u => u.followers)
        = (User.findById b s.users).map (fun u => u.followers + 1)) ∧
    (User.findById a (followUser a q s).2.users).map (fun u => u.following)
      = (User.findById a s.users).map (fun u => u.following + 1) := by
  obtain ⟨b, hq, hg, ⟨ub, hb⟩, hno⟩ := followUser_status_ok s a q h
  rw [followUser_ok s a b q ub hq hg hb hno]
  refine ⟨?_, ?_, ?_⟩
  · have hb2 : ∃ ub2, User.findById b (User.incFollowing a 1 (User.incFollowers b 1 s.users))
        = some ub2 := by
      rw [User.findById_incFollowing, User.findById_incFollowers, hb]
      exact ⟨_, rfl⟩
    obtain ⟨ub2, hb2⟩ := hb2
    have hmem : (⟨a, b⟩ : Follow) ∈ s.follows ++ [⟨a, b⟩] := by simp
    rw [unfollowUser_ok _ a b q ub2 hq hg hb2 hmem]
    have hfol : (s.follows ++ [(⟨a, b⟩ : Follow)]).eraseP (Follow.matches a b) = s.follows := by
      rw [List.eraseP_append_right _ (fun f hf hm => hno ((Follow.matches_iff a b f).mp hm ▸ hf))]
      simp [List.eraseP_cons, (Follow.matches_iff a b ⟨a, b⟩).mpr rfl]
    simp only [hfol, incFollow_roundtrip s.users a b]
  · intro b2 hq2
    rw [hq] at hq2
    cases hq2
    simp only
    rw [User.findById_incFollowing, User.findById_incFollowers]
    cases User.findById b s.users with
    | none => rfl
    | some u => by_cases hba : b = a <;> simp [hba]
  · simp only
    rw [User.findById_incFollowing, User.findById_incFollowers]
    cases User.findById a s.users with
    | none => rfl
    | some u => by_cases hab : a = b <;> simp [hab]

/-- C5 in the scenario of the spec: from counters 0, `bob` follows `alice`, which
gives `alice.followers = 1` and `bob.following = 1`, and the unfollow returns the
store `fresh`, where both are 0 again. -/
theorem follow_then_unfollow_restores_witness :
    unfollowUser 2 "000000000000000000000001" (followUser 2 "000000000000000000000001" fresh).2
      = (⟨200, "Successfully unfollowed user"⟩, fresh) ∧
    (User.findById 1 (followUser 2 "000000000000000000000001" fresh).2.users).map
      (fun u => u.followers) = some 1 ∧
    (User.findById 2 (followUser 2 "000000000000000000000001" fresh).2.users).map
      (fun u => u.following) = some 1 ∧
    (User.findById 1 fresh.users).map (fun u => u.followers) = some 0 ∧
    (User.findById 2 fresh.users).map (fun u => u.following) = some 0 := by
  have h := follow_then_unfollow_restores fresh 2 "000000000000000000000001" rfl
  exact ⟨h.1, (h.2.1 1 rfl).trans rfl, h.2.2.trans rfl, rfl, rfl⟩

/-! ## Removing an edge that is not there -/

theorem Like.find?_video_eq_none (u v : Nat) (l : List Like)
    (h : ∀ k ∈ l, ¬ (k.user = u ∧ k.video = some v)) :
    l.find? (Like.matchesVideo u v) = none := by
  rw [List.find?_eq_none]
  intro k hk hm
  exact h k hk (by simpa [Like.matchesVideo] using hm)

theorem Like.find?_comment_eq_none (u c : Nat) (l : List Like)
    (h : ∀ k ∈ l, ¬ (k.user = u ∧ k.comment = some c)) :
    l.find? (Like.matchesComment u c) = none := by
  rw [List.find?_eq_none]
  intro k hk hm
  exact h k hk (by simpa [Like.matchesComment] using hm)

/-- C6 as stated fails for `unfollowUser` on the requester's own id: `alice` exists,
there is no edge `(alice, alice)`, the request names her id as `toString()` writes
it, and the answer is the self-reference refusal, not "You are not following this
user". -/
theorem unfollowUser_self_is_not_edge_not_found :
    (∃ u, User.findById 1 fresh.users = some u) ∧
    (⟨1, 1⟩ : Follow) ∉ fresh.follows ∧
    ObjectId.toString 1 = "000000000000000000000001" ∧
    castObjectId "000000000000000000000001" = some 1 ∧
    (unfollowUser 1 "000000000000000000000001" fresh).1
      = ⟨400, "You cannot unfollow yourself"⟩ ∧
    (unfollowUser 1 "000000000000000000000001" fresh).1
      ≠ ⟨400, "You are not following this user"⟩ := by
  refine ⟨⟨alice, rfl⟩, by simp [fresh], rfl, rfl, rfl, by decide⟩

/-- C6, amended: when the target exists and the requester has no edge to it, each of
`unfollowUser`, `unlikeVideo` and `unlikeComment` answers with status 400 and returns
the store unchanged.  The message is the edge-not-found one for `unlikeVideo`, for
`unlikeComment` and for `unfollowUser` on a target other than the requester;
`unfollowUser` with the requester's own id as `toString()` writes it answers "You
cannot unfollow yourself". -/
theorem remove_absent_edge_rejected (s : Store) (a b v c : Nat) (q : String) :
    (castObjectId q = some b → (∃ ub, User.findById b s.users = some ub) →
      (⟨a, b⟩ : Follow) ∉ s.follows →
      (unfollowUser a q s).1.status = 400 ∧
      (unfollowUser a q s).2 = s ∧
      (a ≠ b → (unfollowUser a q s).1 = ⟨400, "You are not following this user"⟩) ∧
      (q = ObjectId.toString a →
        (unfollowUser a q s).1 = ⟨400, "You cannot unfollow yourself"⟩)) ∧
    ((∃ vd, Video.findById v s.videos = some vd) →
      (∀ k ∈ s.likes, ¬ (k.user = a ∧ k.video = some v)) →
      unlikeVideo a v s = (⟨400, "You have not liked this video"⟩, s)) ∧
    ((∃ cm, Comment.findById c s.comments = some cm) →
      (∀ k ∈ s.likes, ¬ (k.user = a ∧ k.comment = some c)) →
      unlikeComment a c s = (⟨400, "You have not liked this comment"⟩, s)) := by
  refine ⟨?_, ?_, ?_⟩
  · rintro hq ⟨ub, hb⟩ hno
    have hnone := (Follow.findOne_eq_none_iff a b s.follows).mpr hno
    by_cases hg : q = ObjectId.toString a
    · refine ⟨by simp [unfollowUser, hg], by simp [unfollowUser, hg], ?_, ?_⟩
      · intro hab
        exact absurd hg (ne_toString_of_cast a b q hq hab)
      · intro _
        simp [unfollowUser, hg]
    · refine ⟨by simp [unfollowUser, hg, hq, hb, hnone],
        by simp [unfollowUser, hg, hq, hb, hnone], ?_, ?_⟩
      · intro _
        simp [unfollowUser, hg, hq, hb, hnone]
      · intro h
        exact absurd h hg
  · rintro ⟨vd, hv⟩ hno
    simp [unlikeVideo, hv, Like.find?_video_eq_none a v s.likes hno]
  · rintro ⟨cm, hc⟩ hno
    simp [unlikeComment, hc, Like.find?_comment_eq_none a c s.likes hno]

/-- C6, amended, on `fresh`: `bob` has no edge to `alice`, to `clip7` or to `note5`,
and `alice` names her own id. -/
theorem remove_absent_edge_rejected_witness :
    unfollowUser 2 "000000000000000000000001" fresh
      = (⟨400, "You are not following this user"⟩, fresh) ∧
    unfollowUser 1 "000000000000000000000001" fresh
      = (⟨400, "You cannot unfollow yourself"⟩, fresh) ∧
    unlikeVideo 2 7 fresh = (⟨400, "You have not liked this video"⟩, fresh) ∧
    unlikeComment 2 5 fresh = (⟨400, "You have not liked this comment"⟩, fresh) := by
  have h := remove_absent_edge_rejected fresh 2 1 7 5 "000000000000000000000001"
  have h1 := h.1 rfl ⟨alice, rfl⟩ (by simp [fresh])
  have h0 := (remove_absent_edge_rejected fresh 1 1 7 5 "000000000000000000000001").1
    rfl ⟨alice, rfl⟩ (by simp [fresh])
  exact ⟨Prod.ext (h1.2.2.1 (by decide)) h1.2.1, Prod.ext (h0.2.2.2 rfl) h0.2.1,
    h.2.1 ⟨clip7, rfl⟩ (by simp [fresh]),
    h.2.2 ⟨note5, rfl⟩ (by simp [fresh])⟩

/-! ## Like records on videos -/

theorem Video.findById_gives_id (v : Nat) (l : List Video) (vd : Video)
    (h : Video.findById v l = some vd) : vd.id = v := by
  have := List.find?_some h
  simpa using this

theorem Comment.findById_yields_id (c : Nat) (l : List Comment) (cm : Comment)
    (h : Comment.findById c l = some cm) : cm.id = c := by
  have := List.find?_some h
  simpa using this

/-- Every path of `likeVideo` other than the successful one leaves the store as it is. -/
theorem likeVideo_store_cases (s : Store) (u v : Nat) :
    (likeVideo u v s).2 = s ∨
      ∃ vd, Video.findById v s.videos = some vd ∧
        (likeVideo u v s).2 =
          { s with likes := s.likes ++ [⟨u, some v, none⟩],
                   videos := Video.saveLikes vd.id (vd.likes + 1) s.videos } := by
  cases hv : Video.findById v s.videos with
  | none => left; simp [likeVideo, hv]
  | some vd =>
    cases hk : s.likes.find? (Like.matchesVideo u v) with
    | some k => left; simp [likeVideo, hv, hk]
    | none =>
      cases hc : Like.create ⟨u, some v, none⟩ s.likes with
      | error e => left; simp [likeVideo, hv, hk, hc]
      | ok likes =>
        right
        refine ⟨vd, rfl, ?_⟩
        have hl : likes = s.likes ++ [⟨u, some v, none⟩] := by
          unfold Like.create at hc
          split at hc
          · cases hc
          · exact (Except.ok.inj hc).symm
        simp [likeVideo, hv, hk, hc, hl]

/-- Every path of `unlikeVideo` other than the successful one leaves the store as it is. -/
theorem unlikeVideo_store_cases (s : Store) (u v : Nat) :
    (unlikeVideo u v s).2 = s ∨
      ∃ vd k, Video.findById v s.videos = some vd ∧ k ∈ s.likes ∧
        Like.matchesVideo u v k = true ∧
        (unlikeVideo u v s).2 =
          { s with likes := s.likes.eraseP (Like.matchesVideo u v),
                   videos := if vd.likes > 0 then Video.saveLikes vd.id (vd.likes - 1) s.videos
                             else s.videos } := by
  cases hv : Video.findById v s.videos with
  | none => left; simp [unlikeVideo, hv]
  | some vd =>
    cases hk : s.likes.find? (Like.matchesVideo u v) with
    | none => left; simp [unlikeVideo, hv, hk]
    | some k =>
      right
      refine ⟨vd, k, rfl, List.mem_of_find?_eq_some hk, List.find?_some hk, ?_⟩
      simp [unlikeVideo, hv, hk]

theorem videoLikeCount_append_single (x u v : Nat) (l : List Like) :
    videoLikeCount x (l ++ [⟨u, some v, none⟩]) = videoLikeCount x l + (if v = x then 1 else 0) := by
  simp [videoLikeCount, List.countP_append, List.countP_cons]

theorem videoLikeCount_eraseP (x u v : Nat) (l : List Like) (k : Like) (hk : k ∈ l)
    (hm : Like.matchesVideo u v k = true) :
    videoLikeCount x (l.eraseP (Like.matchesVideo u v)) + (if v = x then 1 else 0)
      = videoLikeCount x l := by
  unfold videoLikeCount
  by_cases hx : v = x
  · subst hx
    rw [if_pos rfl]
    apply countP_eraseP_of_imp
    · exact ⟨k, hk, hm⟩
    · intro f hf
      have : f.user = u ∧ f.video = some v := by simpa [Like.matchesVideo] using hf
      simp [this.2]
  · rw [if_neg hx, Nat.add_zero]
    apply countP_eraseP_of_not
    intro f hf
    have : f.user = u ∧ f.video = some v := by simpa [Like.matchesVideo] using hf
    simp [this.2, hx]

theorem Video.saveLikes_map_id (id : Nat) (n : Int) (l : List Video) :
    (Video.saveLikes id n l).map (fun v => v.id) = l.map (fun v => v.id) :=
  updateOne_map_key (fun v : Video => v.id) (fun v : Video => v.id == id)
    (fun v => { v with likes := n }) (fun _ => rfl) l

theorem likeVideo_videosUnique (s : Store) (u v : Nat) (h : s.videosUnique) :
    (likeVideo u v s).2.videosUnique := by
  rcases likeVideo_store_cases s u v with h1 | ⟨vd, _, h1⟩
  · rw [h1]; exact h
  · rw [h1]
    unfold Store.videosUnique
    simp only
    rw [Video.saveLikes_map_id]
    exact h

theorem unlikeVideo_videosUnique (s : Store) (u v : Nat) (h : s.videosUnique) :
    (unlikeVideo u v s).2.videosUnique := by
  rcases unlikeVideo_store_cases s u v with h1 | ⟨vd, k, _, _, _, h1⟩
  · rw [h1]; exact h
  · rw [h1]
    unfold Store.videosUnique
    simp only
    split_ifs
    · rw [Video.saveLikes_map_id]; exact h
    · exact h

/-- With unique video ids, membership in the collection after `video.save()`. -/
theorem Video.mem_saveLikes (l : List Video) (vd : Video) (v : Nat) (n : Int)
    (hl : (l.map (fun x => x.id)).Nodup) (hv : Video.findById v l = some vd) (x : Video)
    (hx : x ∈ Video.saveLikes vd.id n l) :
    (x.id = v ∧ x.likes = n) ∨ (x.id ≠ v ∧ x ∈ l) := by
  have hid := Video.findById_gives_id v l vd hv
  unfold Video.saveLikes at hx
  rw [updateOne_eq_map (fun x : Video => x.id) vd.id (fun x => { x with likes := n }) l hl,
    hid] at hx
  obtain ⟨y, hy, rfl⟩ := List.mem_map.mp hx
  by_cases hyv : y.id = v
  · left; simp [hyv]
  · right; simp [hyv, hy]

theorem likeVideo_videoLikesExact (s : Store) (u v : Nat) (hu : s.videosUnique)
    (h : s.videoLikesExact) : (likeVideo u v s).2.videoLikesExact := by
  rcases likeVideo_store_cases s u v with h1 | ⟨vd, hv, h1⟩
  · rw [h1]; exact h
  · rw [h1]
    intro x hx
    simp only at hx
    simp only
    rw [videoLikeCount_append_single]
    have hvd : vd.likes = (videoLikeCount vd.id s.likes : Int) :=
      h vd (List.mem_of_find?_eq_some hv)
    have hid := Video.findById_gives_id v s.videos vd hv
    rcases Video.mem_saveLikes s.videos vd v _ hu hv x hx with ⟨hxv, hxl⟩ | ⟨hxv, hxm⟩
    · rw [hxl, hvd, hid, hxv, if_pos rfl]
      push_cast; ring
    · rw [if_neg (fun e => hxv e.symm), h x hxm]
      simp

theorem unlikeVideo_videoLikesExact (s : Store) (u v : Nat) (hu : s.videosUnique)
    (h : s.videoLikesExact) : (unlikeVideo u v s).2.videoLikesExact := by
  rcases unlikeVideo_store_cases s u v with h1 | ⟨vd, k, hv, hk, hm, h1⟩
  · rw [h1]; exact h
  · rw [h1]
    have hvd : vd.likes = (videoLikeCount vd.id s.likes : Int) :=
      h vd (List.mem_of_find?_eq_some hv)
    have hid := Video.findById_gives_id v s.videos vd hv
    have hcount := videoLikeCount_eraseP v u v s.likes k hk hm
    rw [if_pos rfl] at hcount
    have hpos : vd.likes > 0 := by rw [hvd, hid]; omega
    intro x hx
    simp only [if_pos hpos] at hx
    simp only
    have e := videoLikeCount_eraseP x.id u v s.likes k hk hm
    rcases Video.mem_saveLikes s.videos vd v _ hu hv x hx with ⟨hxv, hxl⟩ | ⟨hxv, hxm⟩
    · rw [hxv, if_pos rfl] at e
      rw [hxv, hxl, hvd, hid]
      omega
    · rw [if_neg (fun e => hxv e.symm)] at e
      rw [h x hxm]
      omega

theorem VideoLikeCall.run_preserves (calls : List VideoLikeCall) (s : Store)
    (h : s.videosUnique ∧ s.videoLikesExact) :
    (calls.foldl (fun s c => c.apply s) s).videosUnique ∧
      (calls.foldl (fun s c => c.apply s) s).videoLikesExact := by
  induction calls generalizing s with
  | nil => exact h
  | cons c cs ih =>
    apply ih
    cases c with
    | like u v =>
      exact ⟨likeVideo_videosUnique s u v h.1, likeVideo_videoLikesExact s u v h.1 h.2⟩
    | unlike u v =>
      exact ⟨unlikeVideo_videosUnique s u v h.1, unlikeVideo_videoLikesExact s u v h.1 h.2⟩

/-- C7: from a store with unique video ids in which every video's `likes` equals the
number of Like records on it, every finite sequence of `likeVideo` and `unlikeVideo`
calls run one after the other, whatever each one answers, ends in a store where
`likes` still equals that number for every video. -/
theorem video_likes_match_records (calls : List VideoLikeCall) (s : Store)
    (hu : s.videosUnique) (h : s.videoLikesExact) :
    (calls.foldl (fun s c => c.apply s) s).videoLikesExact :=
  (VideoLikeCall.run_preserves calls s ⟨hu, h⟩).2

/-- C7 on a history from `fresh` with likes by two users, a repeated like, an unlike
of a video never liked, a like refused by the store and a call on an unknown id. -/
theorem video_likes_match_records_witness :
    (([.like 1 7, .like 2 7, .like 1 7, .unlike 2 8, .like 1 8, .unlike 1 7,
        .like 2 9] : List VideoLikeCall).foldl
      (fun s c => c.apply s) fresh).videoLikesExact :=
  video_likes_match_records _ fresh
    (by simp [Store.videosUnique, fresh, clip7, clip8])
    (by unfold Store.videoLikesExact; decide)

/-! ## Interleaved `likeVideo` requests -/

/-- Run without interruption, the four store operations of a request are the handler
`likeVideo`: same reply, same store. -/
theorem likeVideoSolo_eq_likeVideo (u v : Nat) (s : Store) :
    (likeVideoSolo u v s).1.pc = .done (likeVideo u v s).1 ∧
    (likeVideoSolo u v s).2 = (likeVideo u v s).2 := by
  cases hv : Video.findById v s.videos with
  | none => simp [likeVideoSolo, likeVideoStep, likeVideo, hv]
  | some vd =>
    cases hk : s.likes.find? (Like.matchesVideo u v) with
    | some k => simp [likeVideoSolo, likeVideoStep, likeVideo, hv, hk]
    | none =>
      cases hc : Like.create ⟨u, some v, none⟩ s.likes with
      | error e => simp [likeVideoSolo, likeVideoStep, likeVideo, hv, hk, hc]
      | ok likes => simp [likeVideoSolo, likeVideoStep, likeVideo, hv, hk, hc]

/-- C8, the code at the failing input: `clip7` has `likes = 0` and no Like record,
`alice` and `bob` like it at the same time and their store operations alternate.  Both
requests answer 200 and two Like records exist, but both wrote `likes = 0 + 1`, so
`clip7.likes` is 1, not 2.  Run one after the other the same requests give 2. -/
theorem likeVideo_interleaved_loses_update :
    (Video.findById 7 racing.store.videos).map (fun v => v.likes) = some 0 ∧
    videoLikeCount 7 racing.store.likes = 0 ∧
    ((racing.run [0, 1, 0, 1, 0, 1, 0, 1]).reqs.map (fun r => r.pc)
      = [.done ⟨200, "Video liked successfully"⟩, .done ⟨200, "Video liked successfully"⟩]) ∧
    videoLikeCount 7 (racing.run [0, 1, 0, 1, 0, 1, 0, 1]).store.likes = 2 ∧
    (Video.findById 7 (racing.run [0, 1, 0, 1, 0, 1, 0, 1]).store.videos).map
      (fun v => v.likes) = some 1 ∧
    (Video.findById 7 (racing.run [0, 0, 0, 0, 1, 1, 1, 1]).store.videos).map
      (fun v => v.likes) = some 2 := by
  refine ⟨rfl, rfl, rfl, rfl, rfl, rfl⟩

/-! ## The unique indexes of the Like collection -/

/-- C9, the code at the failing input: `alice` has liked `clip7`; `clip8` exists and
she has no Like record on it, yet `likeVideo` by her on `clip8` is refused by the
index on `(user, comment)`, where both records carry `comment = null`: the answer is
500 with the duplicate key message, no record is created and `clip8.likes` stays 0. -/
theorem likeVideo_second_video_refused :
    Video.findById 8 aliceLiked7.videos = some clip8 ∧
    (∀ k ∈ aliceLiked7.likes, ¬ (k.user = 1 ∧ k.video = some 8)) ∧
    likeVideo 1 8 aliceLiked7 = (⟨500, "E11000 duplicate key error"⟩, aliceLiked7) ∧
    (Video.findById 8 (likeVideo 1 8 aliceLiked7).2.videos).map (fun v => v.likes) = some 0 ∧
    videoLikeCount 8 (likeVideo 1 8 aliceLiked7).2.likes = 0 := by
  refine ⟨rfl, by decide, rfl, rfl, rfl⟩

/-! ## The floor of `unlikeComment` -/

theorem eraseP_eq_erase_of_find? {α : Type} [DecidableEq α] (p : α → Bool) (l : List α)
    (k : α) (h : l.find? p = some k) : l.eraseP p = l.erase k := by
  induction l with
  | nil => cases h
  | cons x xs ih =>
    by_cases hx : p x = true
    · have hk : x = k := by simpa [List.find?_cons, hx] using h
      subst hk
      simp [List.eraseP_cons, hx]
    · have h2 : xs.find? p = some k := by simpa [List.find?_cons, hx] using h
      have hpk : p k = true := List.find?_some h2
      have hne : x ≠ k := fun e => hx (e ▸ hpk)
      have hbeq : (x == k) = false := by simpa using hne
      simp [List.eraseP_cons, hx, List.erase_cons, hbeq, ih h2]

theorem Comment.findById_saveLikes (l : List Comment) (c : Nat) (cm : Comment) (n : Int)
    (hc : Comment.findById c l = some cm) :
    Comment.findById c (Comment.saveLikes cm.id n l) = some { cm with likes := n } := by
  have hid : Comment.saveLikes cm.id n l = Comment.saveLikes c n l := by
    rw [Comment.findById_yields_id c l cm hc]
  rw [hid]
  unfold Comment.findById Comment.saveLikes
  rw [find?_updateOne_same (fun x : Comment => x.id == c) (fun x => { x with likes := n })
    (fun _ => rfl) l]
  unfold Comment.findById at hc
  rw [hc]
  rfl

/-- C10: for a stored comment with `likes ≥ 0`, after `unlikeComment` its `likes` is
still `≥ 0`; without a Like record of the requester on it the call answers 400 and
the store is unchanged; with one, the call answers 200, that record is removed, and
`likes` stays 0 if it was 0 and otherwise goes down by exactly 1. -/
theorem unlikeComment_keeps_floor (s : Store) (u c : Nat) (cm : Comment)
    (hc : Comment.findById c s.comments = some cm) (h0 : 0 ≤ cm.likes) :
    (∃ cm1, Comment.findById c (unlikeComment u c s).2.comments = some cm1 ∧ 0 ≤ cm1.likes) ∧
    ((∀ k ∈ s.likes, ¬ (k.user = u ∧ k.comment = some c)) →
      unlikeComment u c s = (⟨400, "You have not liked this comment"⟩, s)) ∧
    (∀ k, s.likes.find? (Like.matchesComment u c) = some k →
      (unlikeComment u c s).1 = ⟨200, "Comment unliked successfully"⟩ ∧
      (unlikeComment u c s).2.likes = s.likes.erase k ∧
      Comment.findById c (unlikeComment u c s).2.comments
        = some { cm with likes := if cm.likes = 0 then 0 else cm.likes - 1 }) := by
  have hyes : ∀ k, s.likes.find? (Like.matchesComment u c) = some k →
      (unlikeComment u c s).1 = ⟨200, "Comment unliked successfully"⟩ ∧
      (unlikeComment u c s).2.likes = s.likes.erase k ∧
      Comment.findById c (unlikeComment u c s).2.comments
        = some { cm with likes := if cm.likes = 0 then 0 else cm.likes - 1 } := by
    intro k hk
    by_cases hpos : cm.likes > 0
    · have hne : ¬ cm.likes = 0 := by omega
      simp only [unlikeComment, hc, hk, if_pos hpos, if_neg hne]
      exact ⟨trivial, eraseP_eq_erase_of_find? _ _ k hk,
        Comment.findById_saveLikes s.comments c cm _ hc⟩
    · have hz : cm.likes = 0 := by omega
      simp only [unlikeComment, hc, hk, if_neg hpos, if_pos hz]
      refine ⟨trivial, eraseP_eq_erase_of_find? _ _ k hk, ?_⟩
      cases cm
      simp_all
  have hno : (∀ k ∈ s.likes, ¬ (k.user = u ∧ k.comment = some c)) →
      unlikeComment u c s = (⟨400, "You have not liked this comment"⟩, s) := by
    intro h
    simp [unlikeComment, hc, Like.find?_comment_eq_none u c s.likes h]
  refine ⟨?_, hno, hyes⟩
  cases hk : s.likes.find? (Like.matchesComment u c) with
  | none =>
    have h : ∀ k ∈ s.likes, ¬ (k.user = u ∧ k.comment = some c) := by
      intro k hmem hm
      have := List.find?_eq_none.mp hk k hmem
      exact this (by simp [Like.matchesComment, hm.1, hm.2])
    rw [hno h]
    exact ⟨cm, hc, h0⟩
  | some k =>
    refine ⟨_, (hyes k hk).2.2, ?_⟩
    simp only
    split_ifs <;> omega

/-- C10 on `uncounted`, where `bob` has a Like record on `note5` while `note5.likes`
is 0: the record is removed and `likes` stays 0. -/
theorem unlikeComment_keeps_floor_witness :
    (unlikeComment 2 5 uncounted).1 = ⟨200, "Comment unliked successfully"⟩ ∧
    (unlikeComment 2 5 uncounted).2.likes = [] ∧
    Comment.findById 5 (unlikeComment 2 5 uncounted).2.comments = some note5 := by
  have h := (unlikeComment_keeps_floor uncounted 2 5 note5 rfl (by decide)).2.2
    ⟨2, none, some 5⟩ rfl
  exact ⟨h.1, h.2.1.trans (by decide), h.2.2.trans rfl⟩

/-! ## Decrements without a floor -/

/-- C11, the code at failing inputs.  In `crossReplied` every counter is `≥ 0` and
agrees with the records; `deleteComment` of `note5` by its author takes
`clip7.comments` from 1 to -1.  In `fresh`, where `clip7.comments` is 0,
the same call takes it to -1, and in `unseenEdge`, where the edge exists while
`alice.followers` and `bob.following` are 0, `unfollowUser` takes both to -1. -/
theorem decrements_pass_below_zero :
    crossReplied.countersNonneg ∧
    (deleteComment 2 5 crossReplied).1 = ⟨200, "Comment deleted successfully"⟩ ∧
    (Video.findById 7 crossReplied.videos).map (fun v => v.comments) = some 1 ∧
    (Video.findById 7 (deleteComment 2 5 crossReplied).2.videos).map (fun v => v.comments)
      = some (-1) ∧
    ¬ (deleteComment 2 5 crossReplied).2.countersNonneg ∧
    fresh.countersNonneg ∧
    (Video.findById 7 (deleteComment 2 5 fresh).2.videos).map (fun v => v.comments)
      = some (-1) ∧
    unseenEdge.countersNonneg ∧
    (unfollowUser 2 "000000000000000000000001" unseenEdge).1
      = ⟨200, "Successfully unfollowed user"⟩ ∧
    (User.findById 1 (unfollowUser 2 "000000000000000000000001" unseenEdge).2.users).map
      (fun u => u.followers) = some (-1) ∧
    (User.findById 2 (unfollowUser 2 "000000000000000000000001" unseenEdge).2.users).map
      (fun u => u.following) = some (-1) := by
  refine ⟨?_, rfl, rfl, rfl, ?_, ?_, rfl, ?_, rfl, rfl, rfl⟩
  · unfold Store.countersNonneg; decide
  · unfold Store.countersNonneg; decide
  · unfold Store.countersNonneg; decide
  · unfold Store.countersNonneg; decide

/-! ## Cascade deletion -/

/-- With unique keys, deleting the first document with key `k` leaves exactly the
documents with another key. -/
theorem eraseP_eq_filter_of_nodup {α : Type} (key : α → Nat) (k : Nat) (l : List α)
    (hl : (l.map key).Nodup) :
    l.eraseP (fun x => key x == k) = l.filter (fun x => key x != k) := by
  induction l with
  | nil => rfl
  | cons x xs ih =>
    have hnd : (xs.map key).Nodup := (List.nodup_cons.mp (by simpa using hl)).2
    have hnot : key x ∉ xs.map key := (List.nodup_cons.mp (by simpa using hl)).1
    by_cases hx : key x = k
    · have hrest : xs.filter (fun y => key y != k) = xs := by
        rw [List.filter_eq_self]
        intro y hy
        have : key y ≠ k := by
          intro hyk
          exact hnot (by rw [hx, ← hyk]; exact List.mem_map_of_mem key hy)
        simpa using this
      simp [List.eraseP_cons, hx, hrest]
    · simp [List.eraseP_cons, hx, ih hnd]

/-- The successful path of `deleteVideo`, with the store it writes. -/
theorem deleteVideo_ok (s : Store) (u v : Nat) (vd : Video)
    (hv : Video.findById v s.videos = some vd) (hown : vd.user = u) :
    deleteVideo u v s =
      (⟨200, "Video deleted successfully"⟩,
        { s with likes := s.likes.filter (fun k => !(k.video == some v)),
                 comments := s.comments.filter (fun c => !(c.video == v)),
                 videos := s.videos.eraseP (fun x => x.id == v) }) := by
  simp [deleteVideo, hv, hown]

/-- C12: for a video `v` owned by the requester, in a store with unique video ids,
`deleteVideo` answers 200 and leaves no Video with id `v`, no Comment with
`video = v` and no Like with `video = v`; the three collections keep, in order, exactly
their records that do not refer to `v`, users and follows are untouched, and
`getVideoById` on `v` in the resulting store answers 404 for every requester. -/
theorem deleteVideo_removes_video_comments_likes (s : Store) (u v : Nat) (vd : Video)
    (huniq : s.videosUnique) (hv : Video.findById v s.videos = some vd)
    (hown : vd.user = u) :
    (deleteVideo u v s).1 = ⟨200, "Video deleted successfully"⟩ ∧
    (∀ x ∈ (deleteVideo u v s).2.videos, x.id ≠ v) ∧
    (∀ c ∈ (deleteVideo u v s).2.comments, c.video ≠ v) ∧
    (∀ k ∈ (deleteVideo u v s).2.likes, k.video ≠ some v) ∧
    (deleteVideo u v s).2.videos = s.videos.filter (fun x => x.id != v) ∧
    (deleteVideo u v s).2.comments = s.comments.filter (fun c => c.video != v) ∧
    (deleteVideo u v s).2.likes = s.likes.filter (fun k => k.video != some v) ∧
    (deleteVideo u v s).2.users = s.users ∧
    (deleteVideo u v s).2.follows = s.follows ∧
    (∀ r, getVideoById r v (deleteVideo u v s).2
      = (.message ⟨404, "Video not found"⟩, (deleteVideo u v s).2)) := by
  rw [deleteVideo_ok s u v vd hv hown]
  have hvid : s.videos.eraseP (fun x => x.id == v) = s.videos.filter (fun x => x.id != v) :=
    eraseP_eq_filter_of_nodup (fun x : Video => x.id) v s.videos huniq
  have hnone : Video.findById v (s.videos.eraseP (fun x => x.id == v)) = none := by
    unfold Video.findById
    rw [hvid, List.find?_eq_none]
    intro x hx
    have := (List.mem_filter.mp hx).2
    simpa using this
  refine ⟨rfl, ?_, ?_, ?_, hvid, rfl, rfl, rfl, rfl, ?_⟩
  · intro x hx
    simp only at hx
    rw [hvid] at hx
    simpa using (List.mem_filter.mp hx).2
  · intro c hc
    simpa using (List.mem_filter.mp hc).2
  · intro k hk
    simpa using (List.mem_filter.mp hk).2
  · intro r
    simp [getVideoById, hnone]

/-- C12 on `likedThread`: `alice` deletes her video `clip7`. -/
theorem deleteVideo_removes_video_comments_likes_witness :
    (deleteVideo 1 7 likedThread).1 = ⟨200, "Video deleted successfully"⟩ ∧
    (deleteVideo 1 7 likedThread).2.videos = [clip8] ∧
    (deleteVideo 1 7 likedThread).2.comments = [] ∧
    getVideoById (some 2) 7 (deleteVideo 1 7 likedThread).2
      = (.message ⟨404, "Video not found"⟩, (deleteVideo 1 7 likedThread).2) := by
  have h := deleteVideo_removes_video_comments_likes likedThread 1 7 { clip7 with comments := 2 }
    (by simp [Store.videosUnique, likedThread, clip7, clip8]) rfl rfl
  exact ⟨h.1, h.2.2.2.2.1.trans rfl, h.2.2.2.2.2.1.trans rfl, h.2.2.2.2.2.2.2.2.2 (some 2)⟩

/-- C13, the code at the failing input: in `likedThread`, reached from `tidy` by one
reply and two likes, the comments 5 and 6 are on `clip7` and each carries a Like
record.  `deleteVideo` of `clip7` by its owner answers 200 and removes both comments,
and both Like records on them are still stored. -/
theorem deleteVideo_leaves_comment_likes :
    likedThread = (likeComment 2 6 (likeComment 1 5
      (addComment 1 7 (some "thanks") (some 5) 6 103 tidy).2).2).2 ∧
    (Comment.findById 5 likedThread.comments).map (fun c => c.video) = some 7 ∧
    (Comment.findById 6 likedThread.comments).map (fun c => c.video) = some 7 ∧
    (deleteVideo 1 7 likedThread).1 = ⟨200, "Video deleted successfully"⟩ ∧
    (deleteVideo 1 7 likedThread).2.comments = [] ∧
    (deleteVideo 1 7 likedThread).2.likes = [⟨1, none, some 5⟩, ⟨2, none, some 6⟩] := by
  refine ⟨rfl, rfl, rfl, rfl, rfl, rfl⟩

/-- C14: `deleteVideo` on an absent id answers 404 and on a video of another user
answers 403, in both cases returning the store it was given; it answers 200, or
changes the store at all, only when the requester owns the video.  The same holds
for `deleteComment` and the author of the comment. -/
theorem delete_refused_unless_owner (s : Store) (u x : Nat) :
    (Video.findById x s.videos = none →
      deleteVideo u x s = (⟨404, "Video not found"⟩, s)) ∧
    (∀ vd, Video.findById x s.videos = some vd → vd.user ≠ u →
      deleteVideo u x s = (⟨403, "You can only delete your own videos"⟩, s)) ∧
    ((deleteVideo u x s).1.status = 200 ∨ (deleteVideo u x s).2 ≠ s →
      ∃ vd, Video.findById x s.videos = some vd ∧ vd.user = u) ∧
    (Comment.findById x s.comments = none →
      deleteComment u x s = (⟨404, "Comment not found"⟩, s)) ∧
    (∀ cm, Comment.findById x s.comments = some cm → cm.user ≠ u →
      deleteComment u x s = (⟨403, "You can only delete your own comments"⟩, s)) ∧
    ((deleteComment u x s).1.status = 200 ∨ (deleteComment u x s).2 ≠ s →
      ∃ cm, Comment.findById x s.comments = some cm ∧ cm.user = u) := by
  refine ⟨?_, ?_, ?_, ?_, ?_, ?_⟩
  · intro h
    simp [deleteVideo, h]
  · intro vd h hne
    simp [deleteVideo, h, hne]
  · intro h
    cases hv : Video.findById x s.videos with
    | none => simp [deleteVideo, hv] at h
    | some vd =>
      by_cases hown : vd.user = u
      · exact ⟨vd, rfl, hown⟩
      · simp [deleteVideo, hv, hown] at h
  · intro h
    simp [deleteComment, h]
  · intro cm h hne
    simp [deleteComment, h, hne]
  · intro h
    cases hc : Comment.findById x s.comments with
    | none => simp [deleteComment, hc] at h
    | some cm =>
      by_cases hown : cm.user = u
      · exact ⟨cm, rfl, hown⟩
      · simp [deleteComment, hc, hown] at h

/-- C14 on `likedThread`: `bob` may not delete `clip7` of `alice`, `alice` may not
delete `note5` of `bob`, and nothing with id 9 exists. -/
theorem delete_refused_unless_owner_witness :
    deleteVideo 2 7 likedThread
      = (⟨403, "You can only delete your own videos"⟩, likedThread) ∧
    deleteComment 1 5 likedThread
      = (⟨403, "You can only delete your own comments"⟩, likedThread) ∧
    deleteVideo 1 9 likedThread = (⟨404, "Video not found"⟩, likedThread) ∧
    deleteComment 1 9 likedThread = (⟨404, "Comment not found"⟩, likedThread) :=
  ⟨(delete_refused_unless_owner likedThread 2 7).2.1 _ rfl (by decide),
    (delete_refused_unless_owner likedThread 1 5).2.2.2.2.1 _ rfl (by decide),
    (delete_refused_unless_owner likedThread 1 9).1 rfl,
    (delete_refused_unless_owner likedThread 1 9).2.2.2.1 rfl⟩

/-- C15, the code at the failing input: in `likedThread` the comment 6 is a reply to
`note5` and carries a Like record of `bob`.  `deleteComment` of `note5` by its author
answers 200, removes `note5`, the reply and the Like record on `note5`, and the Like
record on the deleted reply is still stored. -/
theorem deleteComment_leaves_reply_likes :
    (Comment.findById 6 likedThread.comments).map (fun c => c.parent) = some (some 5) ∧
    likedThread.likes = [⟨1, none, some 5⟩, ⟨2, none, some 6⟩] ∧
    (deleteComment 2 5 likedThread).1 = ⟨200, "Comment deleted successfully"⟩ ∧
    (deleteComment 2 5 likedThread).2.comments = [] ∧
    (deleteComment 2 5 likedThread).2.likes = [⟨2, none, some 6⟩] := by
  refine ⟨rfl, rfl, rfl, rfl, rfl⟩

/-- C16, the code at the failing input.  In `tidy` every video's `comments` equals its
number of Comment records.  `addComment` on `clip8` with `parentId` naming `note5`,
a comment on `clip7`, succeeds and keeps that true.  `deleteComment` of `note5` then
subtracts the reply from `clip7` and deletes it without touching `clip8`: `clip7`
ends with `comments = -1` and `clip8` with `comments = 1`, both with no record. -/
theorem comment_counter_breaks_on_cross_video_reply :
    tidy.videoCommentsExact ∧
    (addComment 1 8 (some "me too") (some 5) 6 103 tidy).1.status = 201 ∧
    crossReplied.videoCommentsExact ∧
    (deleteComment 2 5 crossReplied).1 = ⟨200, "Comment deleted successfully"⟩ ∧
    (deleteComment 2 5 crossReplied).2.comments = [] ∧
    (deleteComment 2 5 crossReplied).2.videos.map (fun v => (v.id, v.comments))
      = [(7, -1), (8, 1)] ∧
    ¬ (deleteComment 2 5 crossReplied).2.videoCommentsExact := by
  refine ⟨?_, rfl, ?_, rfl, rfl, rfl, ?_⟩
  · unfold Store.videoCommentsExact; decide
  · unfold Store.videoCommentsExact; decide
  · unfold Store.videoCommentsExact; decide

/-! ## The flag `isLiked` -/

theorem attachIsLiked_videos (u : Nat) (likes : List Like) (videos : List Video) :
    (attachIsLiked u likes videos).map (fun w => w.video) = videos := by
  simp [attachIsLiked, List.map_map, Function.comp_def]

theorem attachIsLiked_flags (s : Store) (u : Nat) (videos : List Video) :
    s.flaggedFor u (attachIsLiked u s.likes videos) := by
  intro w hw
  simp only [attachIsLiked, List.mem_map] at hw
  obtain ⟨v, hv, rfl⟩ := hw
  refine ⟨_, rfl, ?_⟩
  rw [List.contains_iff_exists_mem_beq]
  constructor
  · rintro ⟨i, hi, hiv⟩
    have hiv2 : v.id = i := by simpa using hiv
    subst hiv2
    obtain ⟨k, hk, hkv⟩ := List.mem_filterMap.mp hi
    have hk2 := List.mem_filter.mp hk
    have hku : k.user = u := by
      have := hk2.2
      simp only [Bool.and_eq_true, beq_iff_eq] at this
      exact this.1
    exact ⟨k, hk2.1, hku, hkv⟩
  · rintro ⟨k, hk, hku, hkv⟩
    refine ⟨v.id, ?_, by simp⟩
    apply List.mem_filterMap.mpr
    refine ⟨k, List.mem_filter.mpr ⟨hk, ?_⟩, hkv⟩
    have hmem : v.id ∈ videos.map (fun v => v.id) := List.mem_map_of_mem _ hv
    simp [hku, hkv, hmem]

theorem assemble_videos (r : Option Nat) (likes : List Like) (videos : List Video) :
    (assemble r likes videos).map (fun w => w.video) = videos := by
  cases r with
  | none => simp [assemble, List.map_map, Function.comp_def]
  | some u => exact attachIsLiked_videos u likes videos

theorem assemble_some_flags (s : Store) (u : Nat) (videos : List Video) :
    s.flaggedFor u (assemble (some u) s.likes videos) :=
  attachIsLiked_flags s u videos

theorem assemble_none_flags (likes : List Like) (videos : List Video) :
    unflagged (assemble none likes videos) := by
  intro w hw
  simp only [assemble, List.mem_map] at hw
  obtain ⟨v, _, rfl⟩ := hw
  rfl

/-- C17: in the list that `getAllVideos`, `getVideosByUser` or `searchVideos` sends to
an authenticated requester `u`, every video carries `isLiked`, which is `true` exactly
when a Like record with `user = u` on that video is stored; sent to an anonymous
requester no video carries `isLiked`; and both lists hold the same videos in the same
order.  `getFollowingVideos` flags its list for `u` in the same way, and the videos it
sends are, in order, the ones its query found. -/
theorem lists_flag_liked_videos (s : Store) (u owner : Nat) (page limit : Option Int)
    (regexI : String → Except Err (String → Bool)) (query : Option String) :
    ((∀ st views, getAllVideos (some u) page limit s = .document st views →
        s.flaggedFor u views) ∧
      (∀ st views, getAllVideos none page limit s = .document st views → unflagged views) ∧
      (getAllVideos (some u) page limit s).videos = (getAllVideos none page limit s).videos) ∧
    ((∀ st views, getVideosByUser (some u) owner s = .document st views →
        s.flaggedFor u views) ∧
      (∀ st views, getVideosByUser none owner s = .document st views → unflagged views) ∧
      (getVideosByUser (some u) owner s).videos = (getVideosByUser none owner s).videos) ∧
    ((∀ st views, searchVideos regexI (some u) query s = .document st views →
        s.flaggedFor u views) ∧
      (∀ st views, searchVideos regexI none query s = .document st views → unflagged views) ∧
      (searchVideos regexI (some u) query s).videos
        = (searchVideos regexI none query s).videos) ∧
    ((∀ st views, getFollowingVideos u page limit s = .document st views →
        s.flaggedFor u views) ∧
      (∀ videos,
        (s.follows.filter (fun f => f.follower == u)).map (fun f => f.following) ≠ [] →
        skipLimit ((orDefault page 1 - 1) * orDefault limit 10) (orDefault limit 10)
          (newestFirst (s.videos.filter (fun v =>
            ((s.follows.filter (fun f => f.follower == u)).map
              (fun f => f.following)).contains v.user))) = .ok videos →
        (getFollowingVideos u page limit s).videos = some videos)) := by
  refine ⟨⟨?_, ?_, ?_⟩, ⟨?_, ?_, ?_⟩, ⟨?_, ?_, ?_⟩, ⟨?_, ?_⟩⟩
  · intro st views h
    unfold getAllVideos at h
    simp only at h
    split at h
    · cases h
    · cases h
      exact assemble_some_flags s u _
  · intro st views h
    unfold getAllVideos at h
    simp only at h
    split at h
    · cases h
    · cases h
      exact assemble_none_flags s.likes _
  · unfold getAllVideos
    simp only
    split <;> simp [Answer.videos, assemble_videos]
  · intro st views h
    unfold getVideosByUser at h
    cases h
    exact assemble_some_flags s u _
  · intro st views h
    unfold getVideosByUser at h
    cases h
    exact assemble_none_flags s.likes _
  · simp [getVideosByUser, Answer.videos, assemble_videos]
  · intro st views h
    unfold searchVideos at h
    split at h
    · cases h
    · split at h
      · cases h
      · split at h
        · cases h
        · cases h
          exact assemble_some_flags s u _
  · intro st views h
    unfold searchVideos at h
    split at h
    · cases h
    · split at h
      · cases h
      · split at h
        · cases h
        · cases h
          exact assemble_none_flags s.likes _
  · unfold searchVideos
    split
    · rfl
    · split
      · rfl
      · split <;> simp [Answer.videos, assemble_videos]
  · intro st views h
    unfold getFollowingVideos at h
    simp only at h
    split at h
    · cases h
      intro w hw
      cases hw
    · split at h
      · cases h
      · cases h
        exact attachIsLiked_flags s u _
  · intro videos hne hq
    unfold getFollowingVideos
    simp only
    have hlen : ¬ ((s.follows.filter (fun f => f.follower == u)).map
        (fun f => f.following)).length = 0 := by
      intro h0
      exact hne (List.length_eq_zero.mp h0)
    rw [if_neg hlen, hq]
    simp [Answer.videos, attachIsLiked_videos]

/-- C17 on `aliceLiked7`, where `alice` likes `clip7` only: her list marks `clip7`
and not `clip8`, the anonymous list has the same two videos without the flag. -/
theorem lists_flag_liked_videos_witness :
    getAllVideos (some 1) none none aliceLiked7
      = .document 200 [⟨clip8, some false⟩, ⟨{ clip7 with likes := 1 }, some true⟩] ∧
    getAllVideos none none none aliceLiked7
      = .document 200 [⟨clip8, none⟩, ⟨{ clip7 with likes := 1 }, none⟩] ∧
    aliceLiked7.flaggedFor 1 [⟨clip8, some false⟩, ⟨{ clip7 with likes := 1 }, some true⟩] ∧
    unflagged [⟨clip8, none⟩, ⟨{ clip7 with likes := 1 }, none⟩] :=
  ⟨rfl, rfl,
    (lists_flag_liked_videos aliceLiked7 1 1 none none (fun _ => .ok (fun _ => true))
      none).1.1 200 _ rfl,
    (lists_flag_liked_videos aliceLiked7 1 1 none none (fun _ => .ok (fun _ => true))
      none).1.2.1 200 _ rfl⟩

/-! ## Schema validation -/

set_option maxRecDepth 100000 in
/-- C18, the code at the failing input: `clip7` exists and `longText` has 301
characters.  `addComment` with it as content, and `uploadVideo` with it as caption,
both answer 500 with the message of the validation error, not 400; no record is
created and `clip7.comments` is unchanged. -/
theorem oversized_text_answers_500 :
    jsLength longText = 301 ∧
    (Video.findById 7 tidy.videos).isSome = true ∧
    addComment 1 7 (some longText) none 9 200 tidy =
      (.message ⟨500,
        "Comment validation failed: content: Comment cannot be more than 300 characters"⟩,
        tidy) ∧
    uploadVideo 1 (some "c.mp4") (some longText) none 9 200 tidy =
      (.message ⟨500,
        "Video validation failed: caption: Caption cannot be more than 150 characters"⟩,
        tidy) := by
  refine ⟨rfl, rfl, rfl, rfl⟩

/-! ## `deleteComment` and `addComment` -/

theorem Video.findById_saveComments (l : List Video) (v : Nat) (vd : Video) (n : Int)
    (hv : Video.findById v l = some vd) :
    Video.findById v (Video.saveComments vd.id n l) = some { vd with comments := n } := by
  have hid : Video.saveComments vd.id n l = Video.saveComments v n l := by
    rw [Video.findById_gives_id v l vd hv]
  rw [hid]
  unfold Video.findById Video.saveComments
  rw [find?_updateOne_same (fun x : Video => x.id == v) (fun x => { x with comments := n })
    (fun _ => rfl) l]
  unfold Video.findById at hv
  rw [hv]
  rfl

theorem Video.findById_saveComments_other (l : List Video) (v x : Nat) (n : Int)
    (hx : x ≠ v) :
    Video.findById x (Video.saveComments v n l) = Video.findById x l := by
  unfold Video.findById Video.saveComments
  exact find?_updateOne_other (fun y : Video => y.id == v) (fun y : Video => y.id == x)
    (fun y => { y with comments := n }) (fun _ => rfl)
    (by
      intro y hy hq
      have h1 : y.id = v := by simpa using hy
      have h2 : y.id = x := by simpa using hq
      exact hx (h2.symm.trans h1)) l

/-- The successful path of `deleteComment`, with the store it writes. -/
theorem deleteComment_ok (s : Store) (u c : Nat) (cm : Comment)
    (hc : Comment.findById c s.comments = some cm) (hown : cm.user = u) :
    deleteComment u c s =
      (⟨200, "Comment deleted successfully"⟩,
        { s with
          likes := s.likes.filter (fun k => !(k.comment == some c)),
          comments := (s.comments.filter (fun x => !(x.parent == some c))).eraseP
            (fun x => x.id == c),
          videos :=
            match Video.findById cm.video s.videos with
            | none => s.videos
            | some v =>
              Video.saveComments v.id
                ((if (s.comments.filter (fun x => x.parent == some c)).length > 0 then
                    v.comments - ((s.comments.filter (fun x => x.parent == some c)).length : Int)
                  else v.comments) - 1) s.videos }) := by
  simp [deleteComment, hc, hown]

/-- C19: for a comment `c` written by the requester, in a store with unique comment
ids, `deleteComment` answers 200 and the Comment records left are, in order, exactly
those that are neither `c` nor a record with `parent = c`; in particular a comment
whose parent is one of the deleted replies stays.  When `c` is not its own parent the
number of records removed is 1 plus the number `r` of records with `parent = c`, and
when the video of `c` exists its `comments` goes down by exactly `1 + r`. -/
theorem deleteComment_removes_one_level (s : Store) (u c : Nat) (cm : Comment)
    (huniq : s.commentsUnique) (hc : Comment.findById c s.comments = some cm)
    (hown : cm.user = u) :
    (deleteComment u c s).1 = ⟨200, "Comment deleted successfully"⟩ ∧
    (deleteComment u c s).2.comments
      = s.comments.filter (fun x => x.id != c && x.parent != some c) ∧
    (∀ r ∈ s.comments, r.parent = some c → r.id ≠ c →
      ∀ g ∈ s.comments, g.parent = some r.id → g.id ≠ c →
        g ∈ (deleteComment u c s).2.comments) ∧
    (cm.parent ≠ some c →
      (deleteComment u c s).2.comments.length
          + (1 + (s.comments.filter (fun x => x.parent == some c)).length)
        = s.comments.length) ∧
    (∀ vd, Video.findById cm.video s.videos = some vd →
      Video.findById cm.video (deleteComment u c s).2.videos
        = some { vd with comments := vd.comments
            - (1 + ((s.comments.filter (fun x => x.parent == some c)).length : Int)) }) := by
  rw [deleteComment_ok s u c cm hc hown]
  have hnd : ((s.comments.filter (fun x => !(x.parent == some c))).map (fun x => x.id)).Nodup :=
    List.Nodup.sublist ((List.filter_sublist s.comments).map _) huniq
  have hcomments : (s.comments.filter (fun x => !(x.parent == some c))).eraseP
      (fun x => x.id == c) = s.comments.filter (fun x => x.id != c && x.parent != some c) := by
    rw [eraseP_eq_filter_of_nodup (fun x : Comment => x.id) c _ hnd, List.filter_filter]
    rfl
  refine ⟨rfl, hcomments, ?_, ?_, ?_⟩
  · intro r _ _ hrc g hg hgp hgc
    simp only
    rw [hcomments]
    apply List.mem_filter.mpr
    refine ⟨hg, ?_⟩
    have hne : g.parent ≠ some c := by
      rw [hgp]
      intro h
      exact hrc (Option.some.inj h)
    simp [hgc, hne]
  · intro hself
    simp only
    have hmem : cm ∈ s.comments.filter (fun x => !(x.parent == some c)) := by
      apply List.mem_filter.mpr
      exact ⟨List.mem_of_find?_eq_some hc, by simpa using hself⟩
    have hid : (fun x : Comment => x.id == c) cm = true := by
      simpa using Comment.findById_yields_id c s.comments cm hc
    rw [List.length_eraseP_of_mem hmem hid]
    have hpos : 0 < (s.comments.filter (fun x => !(x.parent == some c))).length :=
      List.length_pos_of_mem hmem
    have hsplit := List.length_eq_countP_add_countP (p := fun x : Comment => x.parent == some c)
      s.comments
    rw [List.countP_eq_length_filter, List.countP_eq_length_filter] at hsplit
    have hsame : s.comments.filter (fun x => decide ¬ (x.parent == some c) = true)
        = s.comments.filter (fun x => !(x.parent == some c)) := by
      apply List.filter_congr
      intro x _
      cases h : (x.parent == some c) <;> simp
    rw [hsame] at hsplit
    omega
  · intro vd hvd
    simp only [hvd]
    rw [Video.findById_saveComments s.videos cm.video vd _ hvd]
    congr 2
    split_ifs with hr
    · ring
    · have h0 : (s.comments.filter (fun x => x.parent == some c)).length = 0 := by omega
      rw [h0]
      simp

/-- C19 on `likedThread`: `bob` deletes `note5`, which has one reply. -/
theorem deleteComment_removes_one_level_witness :
    (deleteComment 2 5 likedThread).1 = ⟨200, "Comment deleted successfully"⟩ ∧
    (deleteComment 2 5 likedThread).2.comments = [] ∧
    (Video.findById 7 likedThread.videos).map (fun v => v.comments) = some 2 ∧
    (Video.findById 7 (deleteComment 2 5 likedThread).2.videos).map (fun v => v.comments)
      = some 0 := by
  have h := deleteComment_removes_one_level likedThread 2 5 { note5 with likes := 1 }
    (by simp [Store.commentsUnique, likedThread, note5]) rfl rfl
  have h7 : Video.findById 7 (deleteComment 2 5 likedThread).2.videos = some _ :=
    h.2.2.2.2 { clip7 with comments := 2 } rfl
  refine ⟨h.1, h.2.1.trans rfl, rfl, ?_⟩
  rw [h7]
  rfl

set_option maxRecDepth 100000 in
/-- C20 as stated fails for content longer than the schema allows: `longText` is not
empty, `clip7` exists and no `parentId` is given, yet `addComment` creates no Comment
and leaves `clip7.comments` as it was. -/
theorem addComment_long_content_creates_nothing :
    longText ≠ "" ∧
    (Video.findById 7 tidy.videos).isSome = true ∧
    (addComment 1 7 (some longText) none 9 200 tidy).1.status ≠ 201 ∧
    (addComment 1 7 (some longText) none 9 200 tidy).2.comments = tidy.comments ∧
    (addComment 1 7 (some longText) none 9 200 tidy).2.videos = tidy.videos := by
  refine ⟨by decide, rfl, ?_, rfl, rfl⟩
  have h : (addComment 1 7 (some longText) none 9 200 tidy).1.status = 500 := rfl
  rw [h]
  decide

/-- With unique video ids, `video.save()` after `video.comments += 1` touches exactly
the document of that video. -/
theorem Video.saveComments_succ_eq_map (l : List Video) (v : Nat) (vd : Video)
    (hl : (l.map (fun x => x.id)).Nodup) (hv : Video.findById v l = some vd) :
    Video.saveComments vd.id (vd.comments + 1) l =
      l.map (fun x => if x.id = v then { x with comments := x.comments + 1 } else x) := by
  unfold Video.saveComments
  rw [updateOne_eq_map (fun x : Video => x.id) vd.id
    (fun x => { x with comments := vd.comments + 1 }) l hl,
    Video.findById_gives_id v l vd hv]
  apply List.map_congr_left
  intro x hx
  by_cases hxv : x.id = v
  · have hxd : x = vd := eq_of_find?_of_nodup (fun x : Video => x.id) v l vd hl hv x hx hxv
    simp [hxv, hxd]
  · simp [hxv]

/-- C20, amended: a request with missing or empty content is answered 400; with
non-empty content an absent video, or a `parentId` naming no stored comment, is
answered 404; in all three cases the store is unchanged.  Otherwise, for content of
at most 300 characters, the answer is 201 with the new comment, which has
`video = videoId`, `user = requester`, the given content, `likes = 0` and
`parent = parentId`; it is the one record appended to the comments, the `comments` of
that video is one higher, and every other document of the store is as before. -/
theorem addComment_contract (s : Store) (u v : Nat) (content : Option String)
    (parentId : Option Nat) (newId now : Nat) :
    ((content = none ∨ content = some "") →
      addComment u v content parentId newId now s
        = (.message ⟨400, "Comment content is required"⟩, s)) ∧
    (∀ text, content = some text → text ≠ "" →
      (Video.findById v s.videos = none →
        addComment u v content parentId newId now s
          = (.message ⟨404, "Video not found"⟩, s)) ∧
      (∀ vd p, Video.findById v s.videos = some vd → parentId = some p →
        Comment.findById p s.comments = none →
        addComment u v content parentId newId now s
          = (.message ⟨404, "Parent comment not found"⟩, s)) ∧
      (∀ vd, Video.findById v s.videos = some vd →
        (∀ p, parentId = some p → ∃ pc, Comment.findById p s.comments = some pc) →
        jsLength text ≤ 300 → s.videosUnique →
        (addComment u v content parentId newId now s).1
          = .document 201 ⟨newId, v, u, text, 0, parentId, now⟩ ∧
        (addComment u v content parentId newId now s).2.comments
          = s.comments ++ [⟨newId, v, u, text, 0, parentId, now⟩] ∧
        (addComment u v content parentId newId now s).2.videos
          = s.videos.map (fun x =>
              if x.id = v then { x with comments := x.comments + 1 } else x) ∧
        (addComment u v content parentId newId now s).2.users = s.users ∧
        (addComment u v content parentId newId now s).2.follows = s.follows ∧
        (addComment u v content parentId newId now s).2.likes = s.likes)) := by
  constructor
  · rintro (h | h) <;> simp [addComment, h]
  · intro text hcontent htext
    subst hcontent
    refine ⟨?_, ?_, ?_⟩
    · intro hv
      simp [addComment, htext, hv]
    · intro vd p hv hp hpc
      subst hp
      simp [addComment, htext, hv, hpc]
    · intro vd hv hparent hlen huniq
      have hcreate : Comment.create ⟨newId, v, u, text, 0, parentId, now⟩ s.comments
          = .ok (s.comments ++ [⟨newId, v, u, text, 0, parentId, now⟩]) := by
        have hnot : ¬ jsLength text > 300 := by omega
        simp [Comment.create, htext, hnot]
      have hvideos := Video.saveComments_succ_eq_map s.videos v vd huniq hv
      cases parentId with
      | none =>
        simp only [addComment, htext, if_false, hv, hcreate, hvideos]
        simp
      | some p =>
        obtain ⟨pc, hpc⟩ := hparent p rfl
        simp only [addComment, htext, if_false, hv, hpc, hcreate, hvideos]
        simp

/-- C20, amended, on `tidy`: `alice` answers `note5` on `clip7`. -/
theorem addComment_contract_witness :
    (addComment 1 7 (some "thanks") (some 5) 6 103 tidy).1
      = .document 201 ⟨6, 7, 1, "thanks", 0, some 5, 103⟩ ∧
    (addComment 1 7 (some "thanks") (some 5) 6 103 tidy).2.comments
      = [note5, ⟨6, 7, 1, "thanks", 0, some 5, 103⟩] ∧
    (addComment 1 7 (some "thanks") (some 5) 6 103 tidy).2.videos
      = [{ clip7 with comments := 2 }, clip8] ∧
    addComment 1 7 (some "") (some 5) 6 103 tidy
      = (.message ⟨400, "Comment content is required"⟩, tidy) ∧
    addComment 1 9 (some "thanks") (some 5) 6 103 tidy
      = (.message ⟨404, "Video not found"⟩, tidy) ∧
    addComment 1 7 (some "thanks") (some 4) 6 103 tidy
      = (.message ⟨404, "Parent comment not found"⟩, tidy) := by
  have h := (addComment_contract tidy 1 7 (some "thanks") (some 5) 6 103).2 "thanks" rfl
    (by decide)
  have hok := h.2.2 { clip7 with comments := 1 } rfl
    (fun p hp => ⟨note5, by cases hp; rfl⟩) (by decide)
    (by simp [Store.videosUnique, tidy, clip7, clip8])
  exact ⟨hok.1, hok.2.1.trans rfl, hok.2.2.1.trans rfl,
    (addComment_contract tidy 1 7 (some "") (some 5) 6 103).1 (Or.inr rfl),
    ((addComment_contract tidy 1 9 (some "thanks") (some 5) 6 103).2 "thanks" rfl
      (by decide)).1 rfl,
    ((addComment_contract tidy 1 7 (some "thanks") (some 4) 6 103).2 "thanks" rfl
      (by decide)).2.1 { clip7 with comments := 1 } 4 rfl rfl rfl⟩

/-! ## Pagination of `getAllVideos` -/

theorem orDefault_of_pos (n : Nat) (d : Int) (hn : 1 ≤ n) : orDefault (some (n : Int)) d = n := by
  have h : ¬ ((n : Int) = 0) := by omega
  simp [orDefault, h]

/-- The videos of page `p` for limit `l`: `l` entries of the sorted list from
position `(p - 1) * l` on. -/
theorem getAllVideos_videos_of_page (s : Store) (r : Option Nat) (p l : Nat)
    (hp : 1 ≤ p) (hl : 1 ≤ l) :
    (getAllVideos r (some (p : Int)) (some (l : Int)) s).videos
      = some (((newestFirst s.videos).drop ((p - 1) * l)).take l) := by
  have hskip : ((p : Int) - 1) * (l : Int) = (((p - 1) * l : Nat) : Int) := by
    have h1 : ((p - 1 : Nat) : Int) = (p : Int) - 1 := by omega
    rw [Nat.cast_mul, h1]
  have hnonneg : ¬ ((((p - 1) * l : Nat) : Int) < 0) := by omega
  unfold getAllVideos
  simp only [orDefault_of_pos p 1 hp, orDefault_of_pos l 10 hl, hskip, skipLimit, hnonneg,
    if_false, Int.toNat_ofNat, Int.natAbs_ofNat]
  simp [Answer.videos, assemble_videos]

theorem newestFirst_perm (l : List Video) : (newestFirst l).Perm l :=
  List.perm_insertionSort _ l

theorem newestFirst_sorted (l : List Video) :
    (newestFirst l).Pairwise (fun a b => b.createdAt ≤ a.createdAt) := by
  haveI : IsTotal Video (fun a b => b.createdAt ≤ a.createdAt) :=
    ⟨fun a b => Nat.le_total b.createdAt a.createdAt⟩
  haveI : IsTrans Video (fun a b => b.createdAt ≤ a.createdAt) :=
    ⟨fun _ _ _ hab hbc => Nat.le_trans hbc hab⟩
  exact List.sorted_insertionSort (fun a b : Video => b.createdAt ≤ a.createdAt) l

theorem firstPages_eq_take (s : Store) (r : Option Nat) (l : Nat) (hl : 1 ≤ l) (n : Nat) :
    firstPages r l n s = (newestFirst s.videos).take (n * l) := by
  induction n with
  | zero => simp [firstPages]
  | succ n ih =>
    unfold firstPages at ih ⊢
    rw [List.range_succ, List.map_append, List.flatten_append, ih]
    have hpage := getAllVideos_videos_of_page s r (n + 1) l (by omega) hl
    simp only [List.map_cons, List.map_nil, Answer.videoList, hpage, Option.getD_some,
      Nat.add_sub_cancel]
    rw [Nat.succ_mul, List.take_add]
    simp

theorem leadingDigits_ten_eq_nil (cs : List Char)
    (h : ∀ c ∈ cs, ¬ (48 ≤ c.toNat ∧ c.toNat ≤ 57)) : leadingDigits 10 cs = [] := by
  cases cs with
  | nil => rfl
  | cons c cs =>
    have hc := h c (List.mem_cons_self _ _)
    unfold leadingDigits
    cases hd : digitValue c with
    | none => rfl
    | some d =>
      have hge : ¬ d < 10 := by
        unfold digitValue at hd
        split_ifs at hd with h1 h2 h3
        · simp only [Bool.and_eq_true, decide_eq_true_eq] at h1
          exact absurd h1 hc
        · have := Option.some.inj hd
          omega
        · have := Option.some.inj hd
          omega
      simp [hge]

/-- A parameter that holds no decimal digit at all is not a number for `parseInt`. -/
theorem parseInt_eq_none_of_no_digit (str : String)
    (h : ∀ c ∈ str.toList, ¬ (48 ≤ c.toNat ∧ c.toNat ≤ 57)) : parseInt (some str) = none := by
  have h0 : ∀ c ∈ str.toList.dropWhile isJsWhiteSpace, ¬ (48 ≤ c.toNat ∧ c.toNat ≤ 57) :=
    fun c hc => h c ((List.dropWhile_sublist _).subset hc)
  simp only [parseInt]
  generalize str.toList.dropWhile isJsWhiteSpace = cs0 at h0 ⊢
  have h1 : ∀ cs1 : List Char,
      cs1 = (if cs0.head? == some '-' || cs0.head? == some '+' then cs0.tail else cs0) →
      ∀ c ∈ cs1, ¬ (48 ≤ c.toNat ∧ c.toNat ≤ 57) := by
    intro cs1 hcs1 c hc
    subst hcs1
    split_ifs at hc
    · exact h0 c (List.mem_of_mem_tail hc)
    · exact h0 c hc
  have hzero : ∀ cs1 : List Char, (∀ c ∈ cs1, ¬ (48 ≤ c.toNat ∧ c.toNat ≤ 57)) →
      ∀ y : Char, (cs1.take 2 == ['0', y]) = false := by
    intro cs1 hcs1 y
    rw [Bool.eq_false_iff]
    intro hc
    have heq : cs1.take 2 = ['0', y] := by simpa using hc
    have hmem : '0' ∈ cs1 := List.mem_of_mem_take (heq ▸ List.mem_cons_self _ _)
    exact hcs1 '0' hmem (by decide)
  have hx := hzero _ (h1 _ rfl) 'x'
  have hX := hzero _ (h1 _ rfl) 'X'
  have hd := leadingDigits_ten_eq_nil _ (h1 _ rfl)
  simp only [hx, hX, Bool.or_self, Bool.false_eq_true, if_false, hd, List.isEmpty_nil, if_true]

/-- C21: for page `p ≥ 1` and limit `l ≥ 1`, `getAllVideos` sends at most `l` videos,
and the one at position `i < l` is the one at position `(p - 1) * l + i` of the list
of all videos sorted by creation time, newest first (a rearrangement of the stored
videos); pages `1, 2, ..., n` one after the other are the first `n * l` entries of
that list, hence the whole list once `n * l` reaches its length.  A `page` that is
absent or for which `parseInt` gives `NaN`, as for a text without any digit, counts
as 1, and such a `limit` counts as 10. -/
theorem getAllVideos_pagination (s : Store) (r : Option Nat) (p l : Nat)
    (hp : 1 ≤ p) (hl : 1 ≤ l) :
    (∃ vs, (getAllVideos r (some (p : Int)) (some (l : Int)) s).videos = some vs ∧
      vs.length ≤ l ∧
      ∀ i, i < l → vs[i]? = (newestFirst s.videos)[(p - 1) * l + i]?) ∧
    (newestFirst s.videos).Perm s.videos ∧
    (newestFirst s.videos).Pairwise (fun a b => b.createdAt ≤ a.createdAt) ∧
    (∀ n, firstPages r l n s = (newestFirst s.videos).take (n * l)) ∧
    (∀ n, s.videos.length ≤ n * l → firstPages r l n s = newestFirst s.videos) ∧
    (∀ limit, getAllVideos r none limit s = getAllVideos r (some 1) limit s) ∧
    (∀ page, getAllVideos r page none s = getAllVideos r page (some 10) s) ∧
    parseInt none = none ∧
    (∀ str, (∀ c ∈ str.toList, ¬ (48 ≤ c.toNat ∧ c.toNat ≤ 57)) →
      parseInt (some str) = none) ∧
    (∀ qp ql, parseInt qp = none → parseInt ql = none →
      getAllVideos r (parseInt qp) (parseInt ql) s = getAllVideos r (some 1) (some 10) s) := by
  refine ⟨?_, newestFirst_perm s.videos, newestFirst_sorted s.videos,
    firstPages_eq_take s r l hl, ?_, ?_, ?_, rfl, parseInt_eq_none_of_no_digit, ?_⟩
  · refine ⟨_, getAllVideos_videos_of_page s r p l hp hl, ?_, ?_⟩
    · rw [List.length_take]
      exact Nat.min_le_left _ _
    · intro i hi
      rw [List.getElem?_take_of_lt hi, List.getElem?_drop]
  · intro n hn
    rw [firstPages_eq_take s r l hl n]
    apply List.take_of_length_le
    rw [(newestFirst_perm s.videos).length_eq]
    exact hn
  · intro limit
    rfl
  · intro page
    rfl
  · intro qp ql hqp hql
    rw [hqp, hql]
    rfl

/-- C21 on `fresh`, whose videos are `clip7` (older) and `clip8` (newer): with limit 1,
page 1 is `clip8` and page 2 is `clip7`, the two pages together are the sorted list,
and the parameters `abc` and absent give page 1 with limit 10. -/
theorem getAllVideos_pagination_witness :
    (getAllVideos none (some 1) (some 1) fresh).videos = some [clip8] ∧
    (getAllVideos none (some 2) (some 1) fresh).videos = some [clip7] ∧
    firstPages none 1 2 fresh = [clip8, clip7] ∧
    newestFirst fresh.videos = [clip8, clip7] ∧
    parseInt (some "abc") = none ∧
    getAllVideos none (parseInt (some "abc")) (parseInt none) fresh
      = getAllVideos none (some 1) (some 10) fresh := by
  have h1 := getAllVideos_pagination fresh none 1 1 (by decide) (by decide)
  have h2 := getAllVideos_pagination fresh none 2 1 (by decide) (by decide)
  refine ⟨rfl, rfl, (h2.2.2.2.2.1 2 (by decide)).trans rfl, rfl,
    h1.2.2.2.2.2.2.2.2.1 "abc" (by decide),
    h1.2.2.2.2.2.2.2.2.2 (some "abc") none rfl rfl⟩

end Backend
